import Mathlib

/-!
# A verification development for the `waitup` readiness-probing engine

This file gives a shallow embedding, in Lean 4, of the core of the `waitup`
Rust crate: target construction and validation (`src/target.rs`,
`src/types.rs`), the security validator and rate limiter (`src/security.rs`),
and the per-target retry/backoff prober and multi-target orchestration
(`src/connection.rs`).  Conventions of the embedding:

* `Duration` and `Instant` values are modelled as `Nat` nanoseconds
  (Rust `Duration` has nanosecond precision); `as_millis` becomes
  division by `10^6` and `Duration::from_millis` multiplication by `10^6`.
* Rust strings are Lean `String`s; character-level validation works on
  `String.data : List Char`.  Rust `str::len` is byte length; every string
  the claims touch is ASCII, where byte length and `List.length` coincide.
* Fallible Rust functions returning `Result<T, WaitForError>` become
  `Except WaitForError T`.
* External crates are abstracted at their boundary: URL parsing
  (`url::Url::parse`) and IP-address parsing (`str::parse::<IpAddr>`) are
  taken as oracle parameters, and the actual network I/O of one connection
  attempt is an oracle giving each attempt's outcome and wall-time cost.
* The async prober loop becomes a fuel-indexed step function on an explicit
  loop state; time advances by the attempt duration and the sleep duration.
-/

namespace Waitup

/-- Decidable equality of results, for evaluating runs at concrete inputs. -/
instance exceptDecEq {ε α : Type _} [DecidableEq ε] [DecidableEq α] :
    DecidableEq (Except ε α) := fun x y =>
  match x, y with
  | .ok a, .ok b =>
    if h : a = b then isTrue (by rw [h])
    else isFalse (by intro hc; cases hc; exact h rfl)
  | .error a, .error b =>
    if h : a = b then isTrue (by rw [h])
    else isFalse (by intro hc; cases hc; exact h rfl)
  | .ok _, .error _ => isFalse (by intro hc; cases hc)
  | .error _, .ok _ => isFalse (by intro hc; cases hc)

/-- Errors of the crate (`error.rs`, `WaitForError`), restricted to the
variants the probing engine constructs.  External-error payloads
(`std::io::Error`, `reqwest::Error`) are abstracted to their display strings. -/
inductive WaitForError where
  | invalidTarget (msg : String)
  | invalidPort (port : Nat)
  | invalidHostname (msg : String)
  | timeout (targets : String)
  | urlParse
  | retryLimitExceeded (limit : Nat)
  | cancelled
  | connection (msg : String)
  | http (msg : String)
  | withContext (message : String) (source : WaitForError)
  deriving DecidableEq, Repr

/-- `ResultExt::with_context` for a `WaitForError` (`error.rs`): connection,
HTTP and URL-parse errors are wrapped in `WithContext`; `InvalidTarget` and
`InvalidHostname` get the context message prepended; other variants are
returned unchanged. -/
def addContext (ctx : String) : WaitForError → WaitForError
  | .connection m => .withContext ctx (.connection m)
  | .http m => .withContext ctx (.http m)
  | .urlParse => .withContext ctx .urlParse
  | .invalidTarget m => .invalidTarget (ctx ++ ": " ++ m)
  | .invalidHostname m => .invalidHostname (ctx ++ ": " ++ m)
  | e => e

/-- `with_context` lifted to results. -/
def withCtx (ctx : String) (r : Except WaitForError α) : Except WaitForError α :=
  match r with
  | .ok a => .ok a
  | .error e => .error (addContext ctx e)

/-- Rust `str::split(sep)` restricted to a single-`char` separator, on
character lists.  Splitting the empty string yields `[[]]`, and separators at
the ends or adjacent to each other yield empty pieces, as in Rust. -/
def splitOnChar (sep : Char) : List Char → List (List Char)
  | [] => [[]]
  | c :: cs =>
    let r := splitOnChar sep cs
    if c = sep then [] :: r
    else (c :: r.headD []) :: r.tail

/-- Rust `str::starts_with(c)` for a `char` pattern, on character lists. -/
def startsWithChar (c : Char) (l : List Char) : Bool :=
  l.head? = some c

/-- Rust `str::ends_with(c)` for a `char` pattern, on character lists. -/
def endsWithChar (c : Char) (l : List Char) : Bool :=
  l.getLast? = some c

/-! Error-message constants from `error.rs::error_messages`. -/

def EMPTY_HOSTNAME : String := "Hostname cannot be empty"
def HOSTNAME_TOO_LONG : String := "Hostname too long (max 253 characters)"
def HOSTNAME_INVALID_HYPHEN : String := "Hostname cannot start or end with hyphen"
def HOSTNAME_EMPTY_LABEL : String := "Hostname labels cannot be empty"
def HOSTNAME_LABEL_TOO_LONG : String := "Hostname labels cannot exceed 63 characters"
def HOSTNAME_LABEL_INVALID_HYPHEN : String := "Hostname labels cannot start or end with hyphen"
def HOSTNAME_INVALID_CHARS : String := "Hostname contains invalid characters"

/-- The per-label checks of `Hostname::validate` (`types.rs`), in source
order: empty label, label too long, leading/trailing hyphen, character set
(`is_ascii_alphanumeric` or `'-'`). -/
def labelValidate (label : List Char) : Except WaitForError Unit :=
  if label.isEmpty then .error (.invalidHostname HOSTNAME_EMPTY_LABEL)
  else if 63 < label.length then .error (.invalidHostname HOSTNAME_LABEL_TOO_LONG)
  else if startsWithChar '-' label || endsWithChar '-' label then
    .error (.invalidHostname HOSTNAME_LABEL_INVALID_HYPHEN)
  else if !(label.all fun c => c.isAlphanum || c = '-') then
    .error (.invalidHostname HOSTNAME_INVALID_CHARS)
  else .ok ()

/-- The label loop of `Hostname::validate`: first failing label wins. -/
def labelsValidate : List (List Char) → Except WaitForError Unit
  | [] => .ok ()
  | l :: ls =>
    match labelValidate l with
    | .error e => .error e
    | .ok _ => labelsValidate ls

/-- `Hostname::validate` (`types.rs`): empty check, total length at most 253,
no leading/trailing hyphen on the whole name, then the per-label loop over
`hostname.split('.')`. -/
def hostnameValidate (hostname : List Char) : Except WaitForError Unit :=
  if hostname.isEmpty then .error (.invalidHostname EMPTY_HOSTNAME)
  else if 253 < hostname.length then .error (.invalidHostname HOSTNAME_TOO_LONG)
  else if startsWithChar '-' hostname || endsWithChar '-' hostname then
    .error (.invalidHostname HOSTNAME_INVALID_HYPHEN)
  else labelsValidate (splitOnChar '.' hostname)

/-- `Hostname::new` (`types.rs`): validate, then return the hostname. -/
def hostnameNew (hostname : String) : Except WaitForError String :=
  match hostnameValidate hostname.data with
  | .error e => .error e
  | .ok _ => .ok hostname

/-- `u64::MAX`. -/
def u64MAX : Nat := 2 ^ 64 - 1

/-- `u128::MAX`. -/
def u128MAX : Nat := 2 ^ 128 - 1

/-- `calculate_next_interval` (`connection.rs`): durations in nanoseconds.
`current.as_millis()` is division by `10^6` (capped at `u128::MAX / 2`), the
`u64` conversion saturates at `u64::MAX`, and the `f64` multiplication by
`1.5` followed by the truncating `as u64` cast is `3 * x / 2` in `Nat`
(exact for every value the `f64` mantissa represents exactly, i.e. all
realistic durations; the negativity/finiteness guard of the source can never
fire for these values).  `Duration::from_millis` multiplies back by `10^6`,
and the result is capped at `max`. -/
def calculateNextInterval (current max : Nat) : Nat :=
  let currentMillis := Nat.min (current / 1000000) (u128MAX / 2)
  let currentMillisU64 := Nat.min currentMillis u64MAX
  let multiplied := Nat.min (3 * currentMillisU64 / 2) u64MAX
  let next := multiplied * 1000000
  if max < next then max else next

/-- The view of a parsed `url::Url` that the engine consumes: `scheme()`,
`host_str()` (for IPv6 hosts the `url` crate includes the brackets, e.g.
`"[::1]"`), the explicit `port()`, and the serialized form `as_str()`
(also its `Display`), whose byte length is `fullLen`. -/
structure Url where
  scheme : String
  hostStr : Option String
  port : Option Nat
  full : String
  deriving DecidableEq, Repr

/-- `url.as_str().len()` (bytes; equal to the char count for ASCII URLs). -/
def Url.fullLen (u : Url) : Nat := u.full.length

/-- `Target` (`types.rs`): a TCP `host:port` pair or an HTTP endpoint.
The Rust `Tcp` variant carries the already-validated newtypes
`Hostname`/`Port`; here the raw values are carried and the constructor
theorems state what validation they passed. -/
inductive Target where
  | tcp (host : String) (port : Nat)
  | http (url : Url) (expectedStatus : Nat) (headers : Option (List (String × String)))
  deriving DecidableEq, Repr

/-- `Target::display` via `zero_cost::TargetDisplay`: `"{host}:{port}"` for
TCP, the URL's `Display` (its serialized form) for HTTP. -/
def Target.display : Target → String
  | .tcp host port => host ++ ":" ++ toString port
  | .http url _ _ => url.full

/-- `Port::new` (`types.rs`): a `u16` that is not zero.  The input is a `Nat`
here, so the `u16` range bound that Rust gets from the type is checked too. -/
def portNew (port : Nat) : Option Nat :=
  if port = 0 || 65535 < port then none else some port

/-- `Port::try_from::<u16>` (`types.rs`). -/
def portTryFrom (port : Nat) : Except WaitForError Nat :=
  match portNew port with
  | some p => .ok p
  | none => .error (.invalidPort port)

/-- `Target::validate_http_config` (`target.rs`): scheme must be `http` or
`https`, the expected status must lie in `100..=599`, and each header must
have a non-empty key and value with the key restricted to ASCII
alphanumerics, `-` and `_`. -/
def validateHttpConfig (url : Url) (expectedStatus : Nat)
    (headers : Option (List (String × String))) : Except WaitForError Unit :=
  if !(url.scheme = "http" || url.scheme = "https") then
    .error (.invalidTarget ("Unsupported URL scheme: " ++ url.scheme))
  else if !(100 ≤ expectedStatus && expectedStatus ≤ 599) then
    .error (.invalidTarget ("Invalid HTTP status code: " ++ toString expectedStatus))
  else
    match headers with
    | none => .ok ()
    | some hs => headersValidate hs
where
  /-- The header loop of `validate_http_config`. -/
  headersValidate : List (String × String) → Except WaitForError Unit
    | [] => .ok ()
    | (key, value) :: rest =>
      if key.isEmpty then .error (.invalidTarget "HTTP header key cannot be empty")
      else if value.isEmpty then .error (.invalidTarget "HTTP header value cannot be empty")
      else if !(key.data.all fun c => c.isAlphanum || c = '-' || c = '_') then
        .error (.invalidTarget ("Invalid HTTP header name: " ++ key))
      else headersValidate rest

/-- `Target::tcp` (`target.rs`): validate the hostname (with context), then
the port, and build the `Tcp` variant. -/
def targetTcp (host : String) (port : Nat) : Except WaitForError Target :=
  match withCtx ("Invalid hostname '" ++ host ++ "'") (hostnameNew host) with
  | .error e => .error e
  | .ok hostname =>
    match withCtx ("Invalid port " ++ toString port) (portTryFrom port) with
    | .error e => .error e
    | .ok p => .ok (.tcp hostname p)

/-- `Target::http` (`target.rs`): run `validate_http_config` with no headers,
then build the `Http` variant. -/
def targetHttp (url : Url) (expectedStatus : Nat) : Except WaitForError Target :=
  match validateHttpConfig url expectedStatus none with
  | .error e => .error e
  | .ok _ => .ok (.http url expectedStatus none)

/-- `Target::http_with_headers` (`target.rs`). -/
def targetHttpWithHeaders (url : Url) (expectedStatus : Nat)
    (headers : List (String × String)) : Except WaitForError Target :=
  match validateHttpConfig url expectedStatus (some headers) with
  | .error e => .error e
  | .ok _ => .ok (.http url expectedStatus (some headers))

/-- Does `s` start with the literal string `pre`?  (Rust `str::starts_with`
for a string pattern, on character lists.) -/
def leadsWith : List Char → List Char → Bool
  | [], _ => true
  | _ :: _, [] => false
  | p :: ps, c :: cs => p = c && leadsWith ps cs

/-- Rust `str::parse::<u16>` restricted to plain digit strings (no sign):
non-empty, all ASCII digits, value at most `65535`. -/
def parseU16 (l : List Char) : Option Nat :=
  if l.isEmpty || !(l.all Char.isDigit) then none
  else
    let n := l.foldl (fun acc c => acc * 10 + (c.toNat - 48)) 0
    if 65535 < n then none else some n

/-- `Target::parse` (`target.rs`).  `urlParse` abstracts `url::Url::parse`
(`none` = parse error).  For strings starting with `http://` or `https://`
the URL is parsed and an `Http` target is built with the given default
status — the source performs no `validate_http_config` call on this path.
Otherwise the string is split on `':'`, which must give exactly two parts:
a hostname (validated with context) and a `u16` port (then `Port`-checked). -/
def targetParse (urlParse : String → Option Url) (targetStr : String)
    (defaultHttpStatus : Nat) : Except WaitForError Target :=
  if leadsWith "http://".data targetStr.data || leadsWith "https://".data targetStr.data then
    match urlParse targetStr with
    | none => .error .urlParse
    | some url => .ok (.http url defaultHttpStatus none)
  else
    let parts := splitOnChar ':' targetStr.data
    if parts.length ≠ 2 then .error (.invalidTarget targetStr)
    else
      let hostPart : String := ⟨parts.headD []⟩
      match withCtx ("Invalid hostname '" ++ hostPart ++ "' in target '" ++ targetStr ++ "'")
          (hostnameNew hostPart) with
      | .error e => .error e
      | .ok hostname =>
        match parseU16 ((parts.drop 1).headD []) with
        | none => .error (.invalidTarget targetStr)
        | some port =>
          match withCtx ("Port " ++ toString port ++ " out of valid range (1-65535)")
              (portTryFrom port) with
          | .error e => .error e
          | .ok p => .ok (.tcp hostname p)

/-- Individual validity of a constructed `Target`, as the data-model invariant
states it: a TCP target has a hostname passing `Hostname::validate` and a
port in `1..=65535`; an HTTP target passes `validate_http_config` (scheme,
status range, headers). -/
def targetValid : Target → Bool
  | .tcp host port =>
    (hostnameValidate host.data).toBool && (1 ≤ port && port ≤ 65535)
  | .http url status headers =>
    (validateHttpConfig url status headers).toBool

/-- `Port::system_port` (`types.rs`): the System Ports range `1..=1023`. -/
def portSystem (port : Nat) : Option Nat :=
  if port = 0 || 1023 < port then none else portNew port

/-- `Port::user_port` (`types.rs`): the User Ports range `1024..=49151`. -/
def portUser (port : Nat) : Option Nat :=
  if port < 1024 || 49151 < port then none else portNew port

/-- `Port::dynamic_port` (`types.rs`): the Dynamic Ports range
`49152..=65535`. -/
def portDynamic (port : Nat) : Option Nat :=
  if port < 49152 then none else portNew port

/-- `HttpTargetBuilder` (`target.rs`): the URL given at creation, the
expected status (defaulting to 200) and the accumulated header list.  The
convenience methods `auth_bearer`, `content_type` and `user_agent` are
`header` with fixed keys, and `headers` appends several pairs; the builder's
state space is fully covered by quantifying over these three fields. -/
structure HttpTargetBuilder where
  url : Url
  expectedStatus : Nat
  headers : List (String × String)
  deriving DecidableEq, Repr

/-- `Target::http_builder` / `HttpTargetBuilder::new` (`target.rs`). -/
def httpBuilderNew (url : Url) : HttpTargetBuilder :=
  { url, expectedStatus := 200, headers := [] }

/-- `HttpTargetBuilder::status` (`target.rs`). -/
def HttpTargetBuilder.status (b : HttpTargetBuilder) (s : Nat) : HttpTargetBuilder :=
  { b with expectedStatus := s }

/-- `HttpTargetBuilder::header` (`target.rs`): push one key/value pair. -/
def HttpTargetBuilder.header (b : HttpTargetBuilder) (key value : String) :
    HttpTargetBuilder :=
  { b with headers := b.headers ++ [(key, value)] }

/-- `HttpTargetBuilder::build` (`target.rs`): an empty header list becomes
`None`, then `validate_http_config` runs on the final URL, status and
headers before the `Http` variant is built. -/
def HttpTargetBuilder.build (b : HttpTargetBuilder) : Except WaitForError Target :=
  let headers := if b.headers.isEmpty then none else some b.headers
  match validateHttpConfig b.url b.expectedStatus headers with
  | .error e => .error e
  | .ok _ => .ok (.http b.url b.expectedStatus headers)

/-- `TcpTargetBuilder` (`target.rs`): the hostname given at creation (already
validated by `Target::tcp_builder`), the port once set, and the pending
port-validation error of the last failed setter. -/
structure TcpTargetBuilder where
  host : String
  port : Option Nat
  portValidationError : Option WaitForError
  deriving DecidableEq, Repr

/-- `Target::tcp_builder` (`target.rs`): validate the hostname (with
context), then create the builder with no port and no pending error. -/
def targetTcpBuilder (host : String) : Except WaitForError TcpTargetBuilder :=
  match withCtx ("Invalid hostname '" ++ host ++ "'") (hostnameNew host) with
  | .error e => .error e
  | .ok hostname => .ok { host := hostname, port := none, portValidationError := none }

/-- One call to a `TcpTargetBuilder` port setter (`port`, `well_known_port`,
`registered_port` or `dynamic_port`), each with its `u16` argument. -/
inductive TcpBuilderOp where
  | setPort (p : Nat)
  | wellKnownPort (p : Nat)
  | registeredPort (p : Nat)
  | dynamicPort (p : Nat)
  deriving DecidableEq, Repr

/-- The four port setters of `TcpTargetBuilder` (`target.rs`): a successful
validation stores the port and clears the pending error; a failed one stores
an `InvalidPort` error.  `port` goes through `Port::try_from`, the others
through the range-restricted `Port` constructors. -/
def TcpTargetBuilder.applyOp (b : TcpTargetBuilder) : TcpBuilderOp → TcpTargetBuilder
  | .setPort p =>
    match portTryFrom p with
    | .ok q => { b with port := some q, portValidationError := none }
    | .error e => { b with portValidationError := some e }
  | .wellKnownPort p =>
    match portSystem p with
    | some q => { b with port := some q, portValidationError := none }
    | none => { b with portValidationError := some (.invalidPort p) }
  | .registeredPort p =>
    match portUser p with
    | some q => { b with port := some q, portValidationError := none }
    | none => { b with portValidationError := some (.invalidPort p) }
  | .dynamicPort p =>
    match portDynamic p with
    | some q => { b with port := some q, portValidationError := none }
    | none => { b with portValidationError := some (.invalidPort p) }

/-- A sequence of port-setter calls on a `TcpTargetBuilder`. -/
def TcpTargetBuilder.applyOps (b : TcpTargetBuilder) (ops : List TcpBuilderOp) :
    TcpTargetBuilder :=
  ops.foldl TcpTargetBuilder.applyOp b

/-- `TcpTargetBuilder::build` (`target.rs`): a pending validation error is
returned first; a missing port is an error; otherwise the `Tcp` variant is
built from the stored hostname and port. -/
def TcpTargetBuilder.build (b : TcpTargetBuilder) : Except WaitForError Target :=
  match b.portValidationError with
  | some e => .error e
  | none =>
    match b.port with
    | none => .error (.invalidTarget "Port must be specified")
    | some port => .ok (.tcp b.host port)

/-- The view of `std::net::IpAddr` that `security.rs` consumes: the four
octets of a V4 address, or the two predicates `is_loopback`/`is_unspecified`
of a V6 address. -/
inductive IpAddr where
  | v4 (o1 o2 o3 o4 : Nat)
  | v6 (loopback unspecified : Bool)
  deriving DecidableEq, Repr

/-- `SecurityValidator::is_private_ip` (`security.rs`): V4 ranges
`10.0.0.0/8`, `172.16.0.0/12` (`octets[1] & 0xf0 == 16`), `192.168.0.0/16`
and loopback `127.0.0.0/8`; V6 loopback or unspecified. -/
def isPrivateIp : IpAddr → Bool
  | .v4 o1 o2 _ _ =>
    o1 = 10 || (o1 = 172 && o2 &&& 240 = 16) || (o1 = 192 && o2 = 168) || o1 = 127
  | .v6 loopback unspecified => loopback || unspecified

/-- `SecurityValidator` (`security.rs`): the policy knobs. -/
structure SecurityValidator where
  allowPrivateIps : Bool
  allowLocalhost : Bool
  allowedPorts : Option (List Nat)
  blockedPorts : List Nat
  maxHostnameLength : Nat
  maxUrlLength : Nat
  deriving DecidableEq, Repr

/-- `SecurityValidator::default` (`security.rs`). -/
def SecurityValidator.defaultConfig : SecurityValidator :=
  { allowPrivateIps := true
    allowLocalhost := true
    allowedPorts := none
    blockedPorts := [22, 23, 135, 445, 1433, 3389, 5432, 6379]
    maxHostnameLength := 253
    maxUrlLength := 2048 }

/-- `SecurityValidator::production` (`security.rs`). -/
def SecurityValidator.production : SecurityValidator :=
  { allowPrivateIps := false
    allowLocalhost := false
    allowedPorts := some [80, 443, 8080, 8443]
    blockedPorts := [22, 23, 25, 53, 135, 139, 445, 993, 995, 1433, 1521, 3306, 3389, 5432, 6379]
    maxHostnameLength := 100
    maxUrlLength := 1024 }

/-- `SecurityValidator::development` (`security.rs`). -/
def SecurityValidator.development : SecurityValidator :=
  { allowPrivateIps := true
    allowLocalhost := true
    allowedPorts := none
    blockedPorts := [22, 23, 135, 445, 3389]
    maxHostnameLength := 253
    maxUrlLength := 2048 }

/-- An oracle for `str::parse::<IpAddr>`: `none` when the string is not an
IP-address literal. -/
def IpParser := String → Option IpAddr

/-- `SecurityValidator::validate_hostname` (`security.rs`): length cap,
localhost policy (`"localhost"` or `"127.0.0.1"`), and — when private IPs are
disallowed and the host parses as an IP — the private-range check. -/
def SecurityValidator.validateHostname (v : SecurityValidator) (ipParse : IpParser)
    (hostStr : String) : Except WaitForError Unit :=
  if v.maxHostnameLength < hostStr.length then
    .error (.invalidHostname ("Hostname too long: " ++ toString hostStr.length ++ " > " ++
      toString v.maxHostnameLength))
  else if !v.allowLocalhost && (hostStr = "localhost" || hostStr = "127.0.0.1") then
    .error (.invalidHostname "Localhost connections are not allowed")
  else if !v.allowPrivateIps then
    match ipParse hostStr with
    | some ip =>
      if isPrivateIp ip then
        .error (.invalidHostname "Private IP addresses are not allowed")
      else .ok ()
    | none => .ok ()
  else .ok ()

/-- `SecurityValidator::validate_port` (`security.rs`): blocklist first, then
the optional allowlist. -/
def SecurityValidator.validatePort (v : SecurityValidator) (port : Nat) :
    Except WaitForError Unit :=
  if v.blockedPorts.contains port then .error (.invalidPort port)
  else
    match v.allowedPorts with
    | some allowed =>
      if !allowed.contains port then .error (.invalidPort port) else .ok ()
    | none => .ok ()

/-- `SecurityValidator::validate_url` (`security.rs`): serialized length cap
(reported as a URL-parse error), then the http/https scheme check. -/
def SecurityValidator.validateUrl (v : SecurityValidator) (url : Url) :
    Except WaitForError Unit :=
  if v.maxUrlLength < url.fullLen then .error .urlParse
  else if !(url.scheme = "http" || url.scheme = "https") then
    .error (.invalidTarget ("Unsupported URL scheme: " ++ url.scheme))
  else .ok ()

/-- `SecurityValidator::validate_target` (`security.rs`).  For TCP:
hostname then port.  For HTTP: the URL checks, then — when the URL has a
host — `Hostname::new` on the host string (whose failure propagates) followed
by the hostname policy checks, then the explicit port if any. -/
def SecurityValidator.validateTarget (v : SecurityValidator) (ipParse : IpParser) :
    Target → Except WaitForError Unit
  | .tcp host port => do
    v.validateHostname ipParse host
    v.validatePort port
  | .http url _ _ => do
    v.validateUrl url
    match url.hostStr with
    | some host => do
      let hostname ← hostnameNew host
      v.validateHostname ipParse hostname
    | none => pure ()
    match url.port with
    | some port => v.validatePort port
    | none => pure ()

/-! ## Rate limiter (`security.rs`)

`Instant` and `SystemTime` readings are modelled by one `Nat` clock in
nanoseconds; `Instant::duration_since` is saturating `Nat` subtraction, as in
Rust.  The `HashMap<String, Vec<Instant>>` becomes an association list (the
map's iteration order is never observed).  The atomics and the `RwLock` of
the source serialize concurrent access; the embedding is the resulting
sequential semantics, threading the mutable state explicitly. -/

/-- The configuration half of `RateLimiter`. -/
structure RateLimiter where
  maxRequestsPerMinute : Nat
  cleanupIntervalNs : Nat
  deriving DecidableEq, Repr

/-- `RateLimiter::new` (`security.rs`): cleanup every 5 minutes. -/
def RateLimiter.new (maxRequestsPerMinute : Nat) : RateLimiter :=
  { maxRequestsPerMinute, cleanupIntervalNs := 300 * 1000000000 }

/-- The mutable half of `RateLimiter`: the per-key timestamp lists and the
last-cleanup clock reading (at construction, the construction time). -/
structure RLState where
  limits : List (String × List Nat)
  lastCleanup : Nat
  deriving DecidableEq, Repr

/-- The entry for `key`, with the `or_insert_with(Vec::new)` default. -/
def RLState.entryD (st : RLState) (key : String) : List Nat :=
  ((st.limits.find? fun p => p.1 = key).map Prod.snd).getD []

/-- Store `l` as the entry for `key` (insert if absent). -/
def rlUpdate (limits : List (String × List Nat)) (key : String) (l : List Nat) :
    List (String × List Nat) :=
  match limits with
  | [] => [(key, l)]
  | (k, v) :: rest => if k = key then (k, l) :: rest else (k, v) :: rlUpdate rest key l

/-- One minute, in nanoseconds. -/
def minuteNs : Nat := 60 * 1000000000

/-- `RateLimiter::get_rate_limit_key` (`security.rs`): `tcp://host:port` for
TCP; for HTTP `http://host:port` with the host string (or `"unknown"`) and
the explicit port, defaulting to 443 for `https` and 80 otherwise. -/
def getRateLimitKey : Target → String
  | .tcp host port => "tcp://" ++ host ++ ":" ++ toString port
  | .http url _ _ =>
    "http://" ++ url.hostStr.getD "unknown" ++ ":" ++
      toString (url.port.getD (if url.scheme = "https" then 443 else 80))

/-- `RateLimiter::cleanup_if_needed` (`security.rs`): when more than the
cleanup interval has passed since the last cleanup, prune timestamps older
than one minute from every key and drop empty entries. -/
def RateLimiter.cleanupIfNeeded (rl : RateLimiter) (st : RLState) (now : Nat) : RLState :=
  if rl.cleanupIntervalNs < now - st.lastCleanup then
    { limits :=
        (st.limits.map fun p => (p.1, p.2.filter fun t => now - t < minuteNs)).filter
          fun p => !p.2.isEmpty
      lastCleanup := now }
  else st

/-- `RateLimiter::check_rate_limit` (`security.rs`): cleanup if due, then for
the target's key prune timestamps older than one minute, reject when the
remaining count is at or above the ceiling (the pruned list stays stored),
else record `now` and allow. -/
def RateLimiter.checkRateLimit (rl : RateLimiter) (st : RLState) (now : Nat)
    (target : Target) : Except WaitForError Unit × RLState :=
  let key := getRateLimitKey target
  let st := rl.cleanupIfNeeded st now
  let requests := (st.entryD key).filter fun t => now - t < minuteNs
  if rl.maxRequestsPerMinute ≤ requests.length then
    (.error (.retryLimitExceeded rl.maxRequestsPerMinute),
      { st with limits := rlUpdate st.limits key requests })
  else
    (.ok (), { st with limits := rlUpdate st.limits key (requests ++ [now]) })

/-! ## The single-target prober (`connection.rs`) -/

/-- `TargetResult` (`types.rs`): `elapsed` in nanoseconds. -/
structure TargetResult where
  target : Target
  success : Bool
  elapsed : Nat
  attempts : Nat
  error : Option String
  deriving DecidableEq, Repr

/-- `WaitResult` (`types.rs`): `elapsed` in nanoseconds. -/
structure WaitResult where
  success : Bool
  elapsed : Nat
  attempts : Nat
  targetResults : List TargetResult
  deriving DecidableEq, Repr

/-- `WaitConfig` (`types.rs`), the fields the probing engine reads.  The
cancellation token is modelled by the absolute clock reading at which it is
cancelled (`none` = no token or never cancelled): `is_cancelled()` at time
`t` is `cancelAt ≤ t`. -/
structure WaitConfig where
  timeout : Nat
  initialInterval : Nat
  maxInterval : Nat
  waitForAny : Bool
  maxRetries : Option Nat
  connectionTimeout : Nat
  cancelAt : Option Nat
  securityValidator : Option SecurityValidator
  rateLimiter : Option RateLimiter
  deriving Repr

/-- `CancellationToken::is_cancelled` at clock reading `time` (false when the
config carries no token). -/
def WaitConfig.isCancelled (cfg : WaitConfig) (time : Nat) : Bool :=
  match cfg.cancelAt with
  | some c => c ≤ time
  | none => false

/-- `try_connect_target` (`connection.rs`): run the security validator if
present, then the rate limiter if present (threading its state), then the
network attempt.  The TCP/HTTP branch (DNS resolution, socket connect, HTTP
GET) is abstracted by `netResult`, the outcome of this attempt's single
network operation, with a failed attempt's formatted message as payload. -/
def tryConnectTarget (ipParse : IpParser) (cfg : WaitConfig) (rlSt : RLState)
    (target : Target) (now : Nat) (netResult : Except String Unit) :
    Except WaitForError Unit × RLState :=
  match cfg.securityValidator with
  | some v =>
    match v.validateTarget ipParse target with
    | .error e => (.error e, rlSt)
    | .ok _ => tryConnectGated cfg rlSt target now netResult
  | none => tryConnectGated cfg rlSt target now netResult
where
  /-- The rate-limiter gate and the network attempt. -/
  tryConnectGated (cfg : WaitConfig) (rlSt : RLState) (target : Target) (now : Nat)
      (netResult : Except String Unit) : Except WaitForError Unit × RLState :=
    match cfg.rateLimiter with
    | some rl =>
      match rl.checkRateLimit rlSt now target with
      | (.error e, rlSt2) => (.error e, rlSt2)
      | (.ok _, rlSt2) => (netToResult netResult, rlSt2)
    | none => (netToResult netResult, rlSt)
  /-- The network outcome as a `WaitForError` result. -/
  netToResult : Except String Unit → Except WaitForError Unit
    | .ok _ => .ok ()
    | .error msg => .error (.connection msg)

/-- The terminal error message of the max-retries branch of
`wait_for_single_target`: `format!("Max retries ({max_retries}) exceeded")`. -/
def maxRetriesMsg (m : Nat) : String :=
  "Max retries (" ++ toString m ++ ") exceeded"

/-- The loop state of `wait_for_single_target`: the rate-limiter state, the
loop-top clock reading `now`, the attempt counter and `current_interval`. -/
structure LoopSt where
  rlSt : RLState
  time : Nat
  attempt : Nat
  interval : Nat
  deriving Repr

/-- One iteration's outcome: a terminal result or the next loop state. -/
inductive StepOut where
  | done (r : Except WaitForError TargetResult)
  | next (st : LoopSt)
  deriving Repr

/-- One iteration of the `wait_for_single_target` loop (`connection.rs`):
cancellation check; deadline check (a normal unsuccessful `TargetResult`);
increment the attempt counter; cap this attempt's connection timeout by the
remaining time; run `try_connect_target` — success terminates, failure
either terminates via the max-retries branch or sleeps `current_interval`
clamped to the deadline (the sleep racing the cancellation token) and
advances the backoff interval.  `net i` is attempt `i`'s network outcome and
`dur i` the wall time that attempt consumes; sleeping advances the clock by
the sleep duration.  When both the sleep timer and a cancellation fire
strictly inside the same sleep, cancellation wins, matching the
`tokio::select!` race; a cancellation at exactly the sleep's end is observed
by the next iteration's loop-top check. -/
def probeStep (ipParse : IpParser) (net : Nat → Except String Unit) (dur : Nat → Nat)
    (target : Target) (cfg : WaitConfig) (start : Nat) (st : LoopSt) : StepOut :=
  if cfg.isCancelled st.time then .done (.error .cancelled)
  else if start + cfg.timeout ≤ st.time then
    .done (.ok { target, success := false, elapsed := st.time - start,
                 attempts := st.attempt, error := some "Overall timeout exceeded" })
  else
    let attempt1 := st.attempt + 1
    let remaining := (start + cfg.timeout) - st.time
    let connTimeout := Nat.min cfg.connectionTimeout remaining
    let attemptRes := tryConnectTarget ipParse
      { cfg with connectionTimeout := connTimeout } st.rlSt target st.time (net attempt1)
    match attemptRes.1 with
    | .ok _ =>
      .done (.ok { target, success := true, elapsed := st.time - start,
                   attempts := attempt1, error := none })
    | .error _ =>
      let hitMax : Bool := match cfg.maxRetries with
        | some m => m ≤ attempt1
        | none => false
      if hitMax then
        .done (.ok { target, success := false, elapsed := st.time - start,
                     attempts := attempt1,
                     error := some (maxRetriesMsg (cfg.maxRetries.getD 0)) })
      else
        let timeAfter := st.time + dur attempt1
        let sleepDur := Nat.min st.interval ((start + cfg.timeout) - timeAfter)
        let cancelledInSleep : Bool := match cfg.cancelAt with
          | some c => c < timeAfter + sleepDur
          | none => false
        if cancelledInSleep then .done (.error .cancelled)
        else .next { rlSt := attemptRes.2, time := timeAfter + sleepDur,
                     attempt := attempt1,
                     interval := calculateNextInterval st.interval cfg.maxInterval }

/-- The `wait_for_single_target` loop, fuel-indexed (`none` = fuel ran out
before the loop reached a terminal state). -/
def probeLoop (ipParse : IpParser) (net : Nat → Except String Unit) (dur : Nat → Nat)
    (target : Target) (cfg : WaitConfig) (start : Nat) :
    Nat → LoopSt → Option (Except WaitForError TargetResult)
  | 0, _ => none
  | fuel + 1, st =>
    match probeStep ipParse net dur target cfg start st with
    | .done r => some r
    | .next st2 => probeLoop ipParse net dur target cfg start fuel st2

/-- `wait_for_single_target` (`connection.rs`): enter the loop at the start
time with zero attempts and `current_interval = initial_interval`, sharing
the rate-limiter state `rlSt`. -/
def waitForSingleTarget (ipParse : IpParser) (net : Nat → Except String Unit)
    (dur : Nat → Nat) (target : Target) (cfg : WaitConfig) (rlSt : RLState)
    (start fuel : Nat) : Option (Except WaitForError TargetResult) :=
  probeLoop ipParse net dur target cfg start fuel
    { rlSt, time := start, attempt := 0, interval := cfg.initialInterval }

/-! ## The multi-target orchestrator (`connection.rs`)

Each prober's terminal outcome is an `Except WaitForError TargetResult`.
Scheduling is abstracted: the ANY branch receives the outcomes in the order
in which the probers complete, the ALL branch in target-list order (as
`join_all` returns them).  The wall-clock `elapsed` of the whole call is an
input, since it is read off the runtime's clock at return. -/

/-- `futures::future::select_ok` on a completion-ordered outcome list: the
first `Ok` outcome wins and the rest are discarded; if every future errors,
the last error is returned (`none` on the empty list, which the caller
excludes). -/
def selectOkList : List (Except WaitForError TargetResult) →
    Option (Except WaitForError TargetResult)
  | [] => none
  | [x] => some x
  | x :: xs =>
    match x with
    | .ok r => some (.ok r)
    | .error _ => selectOkList xs

/-- The `wait_for_any` branch of `wait_for_connection`: the winning
`TargetResult` (successful or not) is mirrored into the `WaitResult`, whose
`target_results` holds only the winner. -/
def waitForConnectionAny (outcomes : List (Except WaitForError TargetResult))
    (elapsed : Nat) : Option (Except WaitForError WaitResult) :=
  match selectOkList outcomes with
  | some (.ok r) =>
    some (.ok { success := r.success, elapsed, attempts := r.attempts,
                targetResults := [r] })
  | some (.error e) => some (.error e)
  | none => none

/-- The collection loop of the `wait_for_all` branch: the first prober error
(cancellation) propagates; otherwise all `TargetResult`s are gathered in
order. -/
def collectResults : List (Except WaitForError TargetResult) →
    Except WaitForError (List TargetResult)
  | [] => .ok []
  | x :: xs =>
    match x with
    | .error e => .error e
    | .ok r =>
      match collectResults xs with
      | .error e => .error e
      | .ok rs => .ok (r :: rs)

/-- The `wait_for_all` branch of `wait_for_connection`: gather all results;
if any target failed, return `WaitForError::Timeout` naming every failed
target by its display string joined by `", "`; otherwise a successful
`WaitResult` whose `attempts` is the sum over the targets. -/
def waitForConnectionAll (outcomes : List (Except WaitForError TargetResult))
    (elapsed : Nat) : Except WaitForError WaitResult :=
  match collectResults outcomes with
  | .error e => .error e
  | .ok targetResults =>
    let allSuccessful := targetResults.all fun r => r.success
    let totalAttempts := (targetResults.map fun r => r.attempts).sum
    if !allSuccessful then
      .error (.timeout (String.intercalate ", "
        ((targetResults.filter fun r => !r.success).map fun r => r.target.display)))
    else
      .ok { success := allSuccessful, elapsed, attempts := totalAttempts, targetResults }

/-! ## Harness definitions for the theorems -/

/-- A hostname "built from labels": the labels joined by `'.'`. -/
def joinLabels : List (List Char) → List Char
  | [] => []
  | [l] => l
  | l :: ls => l ++ '.' :: joinLabels ls

/-- A sequence of `check_rate_limit` calls against one shared limiter: each
call is a target plus the clock reading at which it is made; the returned
list records, in order, whether each call was allowed. -/
def runRateLimiter (rl : RateLimiter) : RLState → List (Target × Nat) → List Bool × RLState
  | st, [] => ([], st)
  | st, (t, now) :: rest =>
    let c := rl.checkRateLimit st now t
    let r := runRateLimiter rl c.2 rest
    (c.1.toBool :: r.1, r.2)

/-- An IP-parse oracle for runs whose host strings are not IP literals
(`"example.com".parse::<IpAddr>()` fails). -/
def ipParseNone : IpParser := fun _ => none

/-- The concrete `url::Url` value of `Url::parse("http://example.com/")`. -/
def exUrl : Url :=
  { scheme := "http", hostStr := some "example.com", port := none,
    full := "http://example.com/" }

/-- A URL-parse oracle defined at the one input the counterexample uses. -/
def urlParseEx : String → Option Url :=
  fun s => if s = "http://example.com/" then some exUrl else none

/-- The target `tcp("example.com", 22)` — port 22 is blocked by the
production security validator. -/
def tcp22 : Target := .tcp "example.com" 22

/-- A configuration with the production validator, `max_retries = 2`, a 1 ms
backoff interval and an ample overall timeout. -/
def c1cfg : WaitConfig :=
  { timeout := 1000000000000, initialInterval := 1000000, maxInterval := 1000000,
    waitForAny := false, maxRetries := some 2, connectionTimeout := 1000000,
    cancelAt := none, securityValidator := some SecurityValidator.production,
    rateLimiter := none }

/-- The target `tcp("db", 5432)`. -/
def dbTarget : Target := .tcp "db" 5432

/-- A gate-free configuration with `max_retries = 2` and zero backoff. -/
def c6cfg : WaitConfig :=
  { timeout := 1000000000000, initialInterval := 0, maxInterval := 0,
    waitForAny := false, maxRetries := some 2, connectionTimeout := 1000000,
    cancelAt := none, securityValidator := none, rateLimiter := none }

/-- The gate-free configuration with a zero overall timeout. -/
def c7cfg : WaitConfig := { c6cfg with timeout := 0 }

/-- ANY-strategy fixture: the unreachable target. -/
def anyTargetA : Target := .tcp "a" 1

/-- ANY-strategy fixture: the reachable target. -/
def anyTargetB : Target := .tcp "b" 2

/-- Configuration of the unreachable target's prober: one retry allowed, so
it fails terminally on its first (instantaneous) attempt. -/
def cfgFailA : WaitConfig := { c6cfg with maxRetries := some 1 }

/-- Configuration of the reachable target's prober: unlimited retries. -/
def cfgSuccB : WaitConfig := { c6cfg with maxRetries := none }

/-- The terminal result of the unreachable target's prober. -/
def rFailA : TargetResult :=
  { target := anyTargetA, success := false, elapsed := 0, attempts := 1,
    error := some "Max retries (1) exceeded" }

/-- The terminal result of the reachable target's prober. -/
def rSuccB : TargetResult :=
  { target := anyTargetB, success := true, elapsed := 0, attempts := 1, error := none }

/-- The `url::Url` view of `"http://[::1]:8080/"`: an IPv6 host literal,
whose `host_str()` keeps the brackets. -/
def v6url : Url :=
  { scheme := "http", hostStr := some "[::1]", port := some 8080,
    full := "http://[::1]:8080/" }

/-- The production-validator configuration with zero backoff and
`max_retries = 3`, for the general policy-rejection run. -/
def c1zcfg : WaitConfig :=
  { timeout := 1000000000, initialInterval := 0, maxInterval := 0,
    waitForAny := false, maxRetries := some 3, connectionTimeout := 1000000,
    cancelAt := none, securityValidator := some SecurityValidator.production,
    rateLimiter := none }

/-! ## Helper lemmas -/

theorem splitOnChar_ne_nil (sep : Char) (l : List Char) : splitOnChar sep l ≠ [] := by
  cases l with
  | nil => simp [splitOnChar]
  | cons c cs =>
    simp only [splitOnChar]
    split <;> simp

theorem splitOnChar_no_sep (sep : Char) (l : List Char) (h : ∀ c ∈ l, c ≠ sep) :
    splitOnChar sep l = [l] := by
  induction l with
  | nil => rfl
  | cons c cs ih =>
    have hc : c ≠ sep := h c (List.mem_cons_self ..)
    have hcs := ih fun x hx => h x (List.mem_cons_of_mem _ hx)
    simp [splitOnChar, hcs, hc]

theorem splitOnChar_append_sep (sep : Char) (l rest : List Char)
    (h : ∀ c ∈ l, c ≠ sep) :
    splitOnChar sep (l ++ sep :: rest) = l :: splitOnChar sep rest := by
  induction l with
  | nil => simp [splitOnChar]
  | cons c cs ih =>
    have hc : c ≠ sep := h c (List.mem_cons_self ..)
    have ihh := ih fun x hx => h x (List.mem_cons_of_mem _ hx)
    simp [splitOnChar, ihh, hc]

theorem mem_splitOnChar (sep : Char) (l : List Char) (c : Char) (hc : c ∈ l)
    (hne : c ≠ sep) : ∃ p ∈ splitOnChar sep l, c ∈ p := by
  induction l with
  | nil => cases hc
  | cons d ds ih =>
    rcases List.mem_cons.mp hc with rfl | hmem
    · have hd : ¬(c = sep) := hne
      cases hr : splitOnChar sep ds with
      | nil => exact absurd hr (splitOnChar_ne_nil sep ds)
      | cons p0 ptail =>
        refine ⟨c :: p0, ?_, List.mem_cons_self ..⟩
        simp [splitOnChar, hd, hr]
    · obtain ⟨p, hp, hcp⟩ := ih hmem
      by_cases hd : d = sep
      · exact ⟨p, by simp [splitOnChar, hd, hp], hcp⟩
      · cases hr : splitOnChar sep ds with
        | nil => exact absurd hr (splitOnChar_ne_nil sep ds)
        | cons p0 ptail =>
          rw [hr] at hp
          rcases List.mem_cons.mp hp with rfl | hptail
          · exact ⟨d :: p, by simp [splitOnChar, hd, hr], List.mem_cons_of_mem _ hcp⟩
          · exact ⟨p, by simp [splitOnChar, hd, hr, hptail], hcp⟩

theorem splitOnChar_joinLabels (ls : List (List Char)) (hne : ls ≠ [])
    (h : ∀ l ∈ ls, ∀ c ∈ l, c ≠ '.') :
    splitOnChar '.' (joinLabels ls) = ls := by
  induction ls with
  | nil => exact absurd rfl hne
  | cons l rest ih =>
    cases rest with
    | nil => exact splitOnChar_no_sep _ _ (h l (List.mem_cons_self ..))
    | cons l2 r2 =>
      have hj : joinLabels (l :: l2 :: r2) = l ++ '.' :: joinLabels (l2 :: r2) := rfl
      rw [hj, splitOnChar_append_sep _ _ _ (h l (List.mem_cons_self ..)),
        ih (by simp) fun x hx => h x (List.mem_cons_of_mem _ hx)]

theorem joinLabels_ne_nil (ls : List (List Char)) (hne : ls ≠ [])
    (h : ∀ l ∈ ls, l ≠ []) : joinLabels ls ≠ [] := by
  cases ls with
  | nil => exact absurd rfl hne
  | cons l rest =>
    cases rest with
    | nil => exact h l (List.mem_cons_self ..)
    | cons l2 r2 =>
      show l ++ '.' :: joinLabels (l2 :: r2) ≠ []
      simp

theorem joinLabels_head? (l : List Char) (ls : List (List Char)) (hl : l ≠ []) :
    (joinLabels (l :: ls)).head? = l.head? := by
  cases ls with
  | nil => rfl
  | cons l2 rest =>
    show (l ++ '.' :: joinLabels (l2 :: rest)).head? = l.head?
    cases l with
    | nil => exact absurd rfl hl
    | cons c cs => rfl

theorem joinLabels_getLast? (ls : List (List Char)) (ll : List Char)
    (h : ∀ l ∈ ls, l ≠ []) (hlast : ls.getLast? = some ll) :
    (joinLabels ls).getLast? = ll.getLast? := by
  induction ls with
  | nil => cases hlast
  | cons l rest ih =>
    cases rest with
    | nil =>
      simp only [List.getLast?] at hlast
      simp only [List.getLast] at hlast
      cases hlast
      rfl
    | cons l2 r2 =>
      have hj : joinLabels (l :: l2 :: r2) = l ++ '.' :: joinLabels (l2 :: r2) := rfl
      rw [hj, List.getLast?_append_cons]
      have hjn : joinLabels (l2 :: r2) ≠ [] :=
        joinLabels_ne_nil _ (by simp) fun x hx => h x (List.mem_cons_of_mem _ hx)
      cases hq : joinLabels (l2 :: r2) with
      | nil => exact absurd hq hjn
      | cons q0 qt =>
        rw [List.getLast?_cons_cons, ← hq]
        rw [List.getLast?_cons_cons] at hlast
        exact ih (fun x hx => h x (List.mem_cons_of_mem _ hx)) hlast

theorem labelsValidate_ok_of (ls : List (List Char))
    (h : ∀ l ∈ ls, labelValidate l = .ok ()) : labelsValidate ls = .ok () := by
  induction ls with
  | nil => rfl
  | cons l rest ih =>
    simp [labelsValidate, h l (List.mem_cons_self ..),
      ih fun x hx => h x (List.mem_cons_of_mem _ hx)]

theorem labelsValidate_ok_mem (ls : List (List Char))
    (h : labelsValidate ls = .ok ()) : ∀ l ∈ ls, labelValidate l = .ok () := by
  induction ls with
  | nil => intro l hl; cases hl
  | cons l rest ih =>
    intro x hx
    simp only [labelsValidate] at h
    cases hv : labelValidate l with
    | error e => rw [hv] at h; cases h
    | ok u =>
      cases u
      rw [hv] at h
      rcases List.mem_cons.mp hx with rfl | hmem
      · exact hv
      · exact ih h x hmem

theorem labelValidate_ok_chars (l : List Char) (h : labelValidate l = .ok ()) :
    ∀ c ∈ l, (c.isAlphanum || c = '-') = true := by
  intro c hc
  simp only [labelValidate] at h
  split at h
  · cases h
  · split at h
    · cases h
    · split at h
      · cases h
      · split at h
        · cases h
        · rename_i hall
          have hall2 : (l.all fun c => c.isAlphanum || c = '-') = true := by
            cases hb : l.all fun c => c.isAlphanum || decide (c = '-')
            · exact absurd (by rw [hb]; rfl) hall
            · rfl
          exact List.all_eq_true.mp hall2 c hc

theorem hostnameValidate_ok_chars (h : List Char) (hok : hostnameValidate h = .ok ()) :
    ∀ c ∈ h, c = '.' ∨ (c.isAlphanum || c = '-') = true := by
  intro c hc
  by_cases hdot : c = '.'
  · exact Or.inl hdot
  · refine Or.inr ?_
    simp only [hostnameValidate] at hok
    split at hok
    · cases hok
    · split at hok
      · cases hok
      · split at hok
        · cases hok
        · obtain ⟨p, hp, hcp⟩ := mem_splitOnChar '.' h c hc hdot
          exact labelValidate_ok_chars p (labelsValidate_ok_mem _ hok p hp) c hcp

theorem hostnameValidate_colon (h : List Char) (hc : ':' ∈ h) :
    (hostnameValidate h).toBool = false := by
  cases hv : hostnameValidate h with
  | error e => rfl
  | ok u =>
    cases u
    rcases hostnameValidate_ok_chars h hv ':' hc with h1 | h2
    · exact absurd h1 (by decide)
    · exact absurd h2 (by decide)

/-! ## Claim C4: exponential backoff -/

/-- Claim C4 as stated is false: `calculate_next_interval` works at
millisecond granularity, so for `current = 0.5 ms` (and `max = 1 s`) the
result is `0`, not `min(current * 1.5, max) = 0.75 ms`, and it is smaller
than `current` although `current > 0`. -/
theorem c4_counterexample :
    calculateNextInterval 500000 1000000000 = 0 ∧
    (500000 : Nat) ≤ 1000000000 ∧ (0 : Nat) < 500000 ∧
    calculateNextInterval 500000 1000000000 ≠ Nat.min (3 * 500000 / 2) 1000000000 ∧
    calculateNextInterval 500000 1000000000 < 500000 := by
  refine ⟨by decide, by decide, by decide, ?_, by decide⟩
  decide

/-- Claim C4, amended: at millisecond granularity.  For `current ≤ max` with
`current` a whole number of milliseconds (within the `f64`-exact range),
`calculate_next_interval(current, max) = min(⌊current_ms * 1.5⌋ ms, max)`,
and the result is at least `current` whenever `current > 0`. -/
theorem c4_next_interval (current mx : Nat) (hms : current % 1000000 = 0)
    (hle : current ≤ mx) (hbound : current / 1000000 ≤ 2 ^ 52) :
    calculateNextInterval current mx =
      Nat.min (3 * (current / 1000000) / 2 * 1000000) mx ∧
    (0 < current → current ≤ calculateNextInterval current mx) := by
  have hk : current / 1000000 * 1000000 = current :=
    Nat.div_mul_cancel (Nat.dvd_of_mod_eq_zero hms)
  have e1 : Nat.min (current / 1000000) (u128MAX / 2) = current / 1000000 :=
    Nat.min_eq_left (le_trans hbound (by decide))
  have e2 : Nat.min (current / 1000000) u64MAX = current / 1000000 :=
    Nat.min_eq_left (le_trans hbound (by decide))
  have e3 : Nat.min (3 * (current / 1000000) / 2) u64MAX = 3 * (current / 1000000) / 2 := by
    have h3 : 3 * (current / 1000000) ≤ 3 * 2 ^ 52 := by omega
    have h4 : 3 * (current / 1000000) / 2 ≤ 3 * 2 ^ 52 / 2 := Nat.div_le_div_right h3
    exact Nat.min_eq_left (le_trans h4 (by decide))
  have hmain : calculateNextInterval current mx =
      Nat.min (3 * (current / 1000000) / 2 * 1000000) mx := by
    simp only [calculateNextInterval, e1, e2, e3]
    rcases Nat.lt_or_ge mx (3 * (current / 1000000) / 2 * 1000000) with h | h
    · rw [if_pos h]
      exact (Nat.min_eq_right (Nat.le_of_lt h)).symm
    · rw [if_neg (Nat.not_lt.mpr h)]
      exact (Nat.min_eq_left h).symm
  refine ⟨hmain, fun hpos => ?_⟩
  rw [hmain]
  have hk1 : 1 ≤ current / 1000000 := by
    rcases Nat.eq_zero_or_pos (current / 1000000) with h0 | h0
    · rw [h0] at hk; simp at hk; omega
    · exact h0
  have hge : current ≤ 3 * (current / 1000000) / 2 * 1000000 := by
    have step : current / 1000000 ≤ 3 * (current / 1000000) / 2 := by
      rw [Nat.le_div_iff_mul_le (by norm_num)]
      omega
    calc current = current / 1000000 * 1000000 := hk.symm
      _ ≤ 3 * (current / 1000000) / 2 * 1000000 := Nat.mul_le_mul_right _ step
  exact le_min hge hle

/-- Witness for the amended C4 at `current = 100 ms`, `max = 10 s`:
the next interval is `150 ms`. -/
theorem c4_next_interval_witness :
    calculateNextInterval 100000000 10000000000 =
      Nat.min (3 * (100000000 / 1000000) / 2 * 1000000) 10000000000 ∧
    100000000 ≤ calculateNextInterval 100000000 10000000000 := by
  have h := c4_next_interval 100000000 10000000000 (by decide) (by decide) (by decide)
  exact ⟨h.1, h.2 (by decide)⟩

/-! ## Claim C7: overall-timeout behaviour of the prober -/

/-- Claim C7: whenever the loop observes `now >= deadline` (and the token has
not fired), the prober returns a normal `TargetResult` with `success = false`
and error `"Overall timeout exceeded"` rather than propagating an error; with
`timeout = 0` the first iteration terminates this way with zero attempts. -/
theorem c7_overall_timeout (ipParse : IpParser) (net : Nat → Except String Unit)
    (dur : Nat → Nat) (target : Target) (cfg : WaitConfig) (start fuel : Nat) :
    (∀ st : LoopSt, cfg.isCancelled st.time = false → start + cfg.timeout ≤ st.time →
      probeLoop ipParse net dur target cfg start (fuel + 1) st =
        some (.ok { target := target, success := false, elapsed := st.time - start,
                    attempts := st.attempt, error := some "Overall timeout exceeded" })) ∧
    (∀ rlSt : RLState, cfg.timeout = 0 → cfg.isCancelled start = false →
      waitForSingleTarget ipParse net dur target cfg rlSt start (fuel + 1) =
        some (.ok { target := target, success := false, elapsed := 0, attempts := 0,
                    error := some "Overall timeout exceeded" })) := by
  constructor
  · intro st hc hd
    simp [probeLoop, probeStep, hc, hd]
  · intro rlSt h0 hc
    simp [waitForSingleTarget, probeLoop, probeStep, hc, h0]

/-- Witness for C7: a zero-timeout configuration terminates at entry with
zero attempts. -/
theorem c7_overall_timeout_witness :
    waitForSingleTarget ipParseNone (fun _ => .error "x") (fun _ => 0) dbTarget c7cfg
      ⟨[], 0⟩ 5 (2 + 1) =
      some (.ok { target := dbTarget, success := false, elapsed := 0, attempts := 0,
                  error := some "Overall timeout exceeded" }) :=
  (c7_overall_timeout ipParseNone (fun _ => .error "x") (fun _ => 0) dbTarget c7cfg 5 2).2
    ⟨[], 0⟩ (by decide) (by decide)

/-! ## Claim C9: hostname validation -/

/-- Claim C9: `Hostname::validate` rejects `""`, `"-example.com"`,
`"example.com-"`, `"a..b"` and every name longer than 253 characters, and
accepts every 253-character name joined from valid labels (non-empty, at most
63 characters, alphanumerics and hyphens, no leading or trailing hyphen). -/
theorem c9_hostname_validation :
    (hostnameValidate "".data).toBool = false ∧
    (hostnameValidate "-example.com".data).toBool = false ∧
    (hostnameValidate "example.com-".data).toBool = false ∧
    (hostnameValidate "a..b".data).toBool = false ∧
    (∀ h : List Char, 253 < h.length → (hostnameValidate h).toBool = false) ∧
    (∀ ls : List (List Char), ls ≠ [] →
      (∀ l ∈ ls, l ≠ [] ∧ l.length ≤ 63 ∧ startsWithChar '-' l = false ∧
        endsWithChar '-' l = false ∧ (l.all fun c => c.isAlphanum || c = '-') = true) →
      (joinLabels ls).length = 253 →
      hostnameValidate (joinLabels ls) = .ok ()) := by
  refine ⟨by decide, by decide, by decide, by decide, ?_, ?_⟩
  · intro h hl
    have hne : ¬h.isEmpty = true := by
      intro he
      rw [List.isEmpty_iff] at he
      subst he
      simp at hl
    simp only [hostnameValidate]
    rw [if_neg hne, if_pos hl]
    rfl
  · intro ls hne hlab hlen
    obtain ⟨l0, rest, rfl⟩ : ∃ l0 rest, ls = l0 :: rest := by
      cases ls with
      | nil => exact absurd rfl hne
      | cons a b => exact ⟨a, b, rfl⟩
    have hlabne : ∀ l ∈ l0 :: rest, l ≠ [] := fun l hl => (hlab l hl).1
    have hnodot : ∀ l ∈ l0 :: rest, ∀ c ∈ l, c ≠ '.' := by
      intro l hl c hc heq
      have hcal := List.all_eq_true.mp (hlab l hl).2.2.2.2 c hc
      subst heq
      exact absurd hcal (by decide)
    have hjne := joinLabels_ne_nil _ hne hlabne
    have hsplit := splitOnChar_joinLabels _ hne hnodot
    have hjemp : ¬(joinLabels (l0 :: rest)).isEmpty = true := by
      intro he
      exact hjne (List.isEmpty_iff.mp he)
    have hstart : startsWithChar '-' (joinLabels (l0 :: rest)) = false := by
      have h0 := joinLabels_head? l0 rest (hlab l0 (List.mem_cons_self ..)).1
      have hs0 := (hlab l0 (List.mem_cons_self ..)).2.2.1
      simp only [startsWithChar] at hs0 ⊢
      rw [h0]
      exact hs0
    have hend : endsWithChar '-' (joinLabels (l0 :: rest)) = false := by
      obtain ⟨ll, hlleq⟩ : ∃ ll, (l0 :: rest).getLast? = some ll := by
        cases hq : (l0 :: rest).getLast? with
        | none => exact absurd (List.getLast?_eq_none_iff.mp hq) (by simp)
        | some x => exact ⟨x, rfl⟩
      have hllmem : ll ∈ l0 :: rest := by
        obtain ⟨hw, hx⟩ :=
          List.mem_getLast?_eq_getLast (l := l0 :: rest) (x := ll) (Option.mem_def.mpr hlleq)
        rw [hx]
        exact List.getLast_mem hw
      have hgl := joinLabels_getLast? (l0 :: rest) ll hlabne hlleq
      have he0 := (hlab ll hllmem).2.2.2.1
      simp only [endsWithChar] at he0 ⊢
      rw [hgl]
      exact he0
    simp only [hostnameValidate]
    rw [if_neg hjemp, if_neg (by rw [hlen]; exact lt_irrefl 253),
      if_neg (by rw [hstart, hend]; simp), hsplit]
    apply labelsValidate_ok_of
    intro l hl
    obtain ⟨hn, h63, hs, he, hall⟩ := hlab l hl
    simp only [labelValidate]
    rw [if_neg (fun hx => hn (List.isEmpty_iff.mp hx)), if_neg (by omega),
      if_neg (by rw [hs, he]; simp), if_neg (by rw [hall]; simp)]

set_option maxRecDepth 8000 in
/-- Witness for C9: a 254-character name is rejected; the 253-character name
with labels of sizes 63, 63, 63 and 61 is accepted. -/
theorem c9_hostname_validation_witness :
    (hostnameValidate (List.replicate 254 'a')).toBool = false ∧
    hostnameValidate (joinLabels [List.replicate 63 'a', List.replicate 63 'a',
      List.replicate 63 'a', List.replicate 61 'a']) = .ok () :=
  ⟨c9_hostname_validation.2.2.2.2.1 _ (by decide),
   c9_hostname_validation.2.2.2.2.2 _ (by decide) (by decide) (by decide)⟩

/-! ## Claim C10: IPv6 URL hosts are rejected by the validator -/

/-- Claim C10: for every HTTP target whose URL host string contains `':'`
(as every bracketed IPv6 literal does), `SecurityValidator::validate_target`
fails regardless of the validator's settings, because the host string is
re-validated through `Hostname::new`, whose character set excludes `':'`. -/
theorem c10_ipv6_host_rejected (v : SecurityValidator) (ipParse : IpParser) (url : Url)
    (status : Nat) (headers : Option (List (String × String))) (h : String)
    (hhost : url.hostStr = some h) (hcolon : ':' ∈ h.data) :
    (v.validateTarget ipParse (.http url status headers)).toBool = false := by
  have hval : (hostnameValidate h.data).toBool = false := hostnameValidate_colon h.data hcolon
  simp only [SecurityValidator.validateTarget]
  cases hu : v.validateUrl url with
  | error e => simp [hu, Bind.bind, Except.bind, Except.toBool]
  | ok u =>
    cases u
    cases hv : hostnameValidate h.data with
    | ok u2 =>
      rw [hv] at hval
      simp [Except.toBool] at hval
    | error e2 =>
      simp [hu, hhost, hostnameNew, hv, Bind.bind, Except.bind, Except.toBool]

/-- Witness for C10: the development validator (permissive settings) rejects
the HTTP target for `http://[::1]:8080/`. -/
theorem c10_ipv6_host_rejected_witness :
    (SecurityValidator.development.validateTarget ipParseNone
      (.http v6url 200 none)).toBool = false :=
  c10_ipv6_host_rejected SecurityValidator.development ipParseNone v6url 200 none
    "[::1]" rfl (by decide)

/-! ## Claim C5: target construction validity -/

theorem withCtx_ok {α} (ctx : String) (r : Except WaitForError α) (a : α)
    (h : withCtx ctx r = .ok a) : r = .ok a := by
  cases r with
  | ok b => simpa [withCtx] using h
  | error e => simp [withCtx] at h

theorem hostnameNew_ok (s h : String) (hk : hostnameNew s = .ok h) :
    hostnameValidate s.data = .ok () ∧ h = s := by
  unfold hostnameNew at hk
  split at hk
  · cases hk
  · rename_i u heq
    cases u
    injection hk with hv
    exact ⟨heq, hv.symm⟩

theorem portNew_some (p q : Nat) (h : portNew p = some q) :
    q = p ∧ 1 ≤ p ∧ p ≤ 65535 := by
  unfold portNew at h
  by_cases hc : (p = 0 || 65535 < p) = true
  · rw [if_pos hc] at h; cases h
  · rw [if_neg hc] at h
    injection h with hv
    simp only [Bool.or_eq_true, decide_eq_true_eq, not_or] at hc
    exact ⟨hv.symm, by omega, by omega⟩

theorem portTryFrom_ok (p q : Nat) (h : portTryFrom p = .ok q) :
    q = p ∧ 1 ≤ p ∧ p ≤ 65535 := by
  unfold portTryFrom at h
  cases hp : portNew p with
  | none => rw [hp] at h; cases h
  | some v =>
    rw [hp] at h
    injection h with hqv
    exact hqv ▸ portNew_some p v hp

theorem portSystem_some (p q : Nat) (h : portSystem p = some q) :
    q = p ∧ 1 ≤ p ∧ p ≤ 65535 := by
  unfold portSystem at h
  split at h
  · cases h
  · exact portNew_some p q h

theorem portUser_some (p q : Nat) (h : portUser p = some q) :
    q = p ∧ 1 ≤ p ∧ p ≤ 65535 := by
  unfold portUser at h
  split at h
  · cases h
  · exact portNew_some p q h

theorem portDynamic_some (p q : Nat) (h : portDynamic p = some q) :
    q = p ∧ 1 ≤ p ∧ p ≤ 65535 := by
  unfold portDynamic at h
  split at h
  · cases h
  · exact portNew_some p q h

theorem targetTcpBuilder_ok (host : String) (b0 : TcpTargetBuilder)
    (h : targetTcpBuilder host = .ok b0) :
    hostnameValidate b0.host.data = .ok () ∧ b0.port = none := by
  unfold targetTcpBuilder at h
  split at h
  · cases h
  · rename_i hostname heq
    injection h with hb
    obtain ⟨hval, hhs⟩ := hostnameNew_ok host hostname (withCtx_ok _ _ _ heq)
    subst hb
    subst hhs
    exact ⟨hval, rfl⟩

theorem applyOp_invariant (b : TcpTargetBuilder) (op : TcpBuilderOp)
    (hh : hostnameValidate b.host.data = .ok ())
    (hp : ∀ p, b.port = some p → 1 ≤ p ∧ p ≤ 65535) :
    hostnameValidate (b.applyOp op).host.data = .ok () ∧
    ∀ p, (b.applyOp op).port = some p → 1 ≤ p ∧ p ≤ 65535 := by
  obtain ⟨bh, bp, be⟩ := b
  cases op with
  | setPort p =>
    simp only [TcpTargetBuilder.applyOp]
    cases hq : portTryFrom p with
    | ok q =>
      obtain ⟨hqp, h1, h2⟩ := portTryFrom_ok p q hq
      refine ⟨hh, fun r hr => ?_⟩
      simp only at hr
      injection hr with hr2
      omega
    | error e => exact ⟨hh, hp⟩
  | wellKnownPort p =>
    simp only [TcpTargetBuilder.applyOp]
    cases hq : portSystem p with
    | some q =>
      obtain ⟨hqp, h1, h2⟩ := portSystem_some p q hq
      refine ⟨hh, fun r hr => ?_⟩
      simp only at hr
      injection hr with hr2
      omega
    | none => exact ⟨hh, hp⟩
  | registeredPort p =>
    simp only [TcpTargetBuilder.applyOp]
    cases hq : portUser p with
    | some q =>
      obtain ⟨hqp, h1, h2⟩ := portUser_some p q hq
      refine ⟨hh, fun r hr => ?_⟩
      simp only at hr
      injection hr with hr2
      omega
    | none => exact ⟨hh, hp⟩
  | dynamicPort p =>
    simp only [TcpTargetBuilder.applyOp]
    cases hq : portDynamic p with
    | some q =>
      obtain ⟨hqp, h1, h2⟩ := portDynamic_some p q hq
      refine ⟨hh, fun r hr => ?_⟩
      simp only at hr
      injection hr with hr2
      omega
    | none => exact ⟨hh, hp⟩

theorem applyOps_invariant (ops : List TcpBuilderOp) :
    ∀ b : TcpTargetBuilder,
      hostnameValidate b.host.data = .ok () →
      (∀ p, b.port = some p → 1 ≤ p ∧ p ≤ 65535) →
      hostnameValidate (b.applyOps ops).host.data = .ok () ∧
      ∀ p, (b.applyOps ops).port = some p → 1 ≤ p ∧ p ≤ 65535 := by
  induction ops with
  | nil => intro b hh hp; exact ⟨hh, hp⟩
  | cons op rest ih =>
    intro b hh hp
    have h1 := applyOp_invariant b op hh hp
    exact ih (b.applyOp op) h1.1 h1.2

/-- Claim C5 as stated is false: the URL branch of `Target::parse` performs
no `validate_http_config` call, so parsing `"http://example.com/"` with
default status 700 succeeds and yields a constructed HTTP `Target` whose
`expected_status` lies outside `100..=599`. -/
theorem c5_counterexample :
    targetParse urlParseEx "http://example.com/" 700 = .ok (.http exUrl 700 none) ∧
    targetValid (.http exUrl 700 none) = false ∧
    (validateHttpConfig exUrl 700 none).toBool = false ∧
    ¬(100 ≤ 700 ∧ (700 : Nat) ≤ 599) := by
  refine ⟨by decide, by decide, by decide, by decide⟩

/-- Claim C5, amended: every `Target` built by the validating constructors —
`Target::tcp`, `Target::http`, `Target::http_with_headers`, the HTTP and TCP
builders, and the `host:port` branch of `Target::parse` — is individually
valid (validated hostname and port in `1..=65535` for TCP,
`validate_http_config` for HTTP, status range included); the URL branch of
`Target::parse` skips that validation, so the invariant excludes it.  The
HTTP builder re-validates everything in `build`, so every builder state is
covered; the TCP builder is covered for every builder created by
`Target::tcp_builder` followed by any sequence of port-setter calls. -/
theorem c5_constructed_targets_valid :
    (∀ h p t, targetTcp h p = .ok t → targetValid t = true) ∧
    (∀ u s t, targetHttp u s = .ok t → targetValid t = true) ∧
    (∀ u s hs t, targetHttpWithHeaders u s hs = .ok t → targetValid t = true) ∧
    (∀ (b : HttpTargetBuilder) t, b.build = .ok t → targetValid t = true) ∧
    (∀ (host : String) (b0 : TcpTargetBuilder) (ops : List TcpBuilderOp) t,
      targetTcpBuilder host = .ok b0 →
      (b0.applyOps ops).build = .ok t → targetValid t = true) ∧
    (∀ up s d t,
      (leadsWith "http://".data s.data || leadsWith "https://".data s.data) = false →
      targetParse up s d = .ok t → targetValid t = true) := by
  refine ⟨?_, ?_, ?_, ?_, ?_, ?_⟩
  · intro h p t ht
    unfold targetTcp at ht
    split at ht
    · cases ht
    · rename_i hostname heq
      split at ht
      · cases ht
      · rename_i p2 heq2
        injection ht with hteq
        subst hteq
        obtain ⟨hval, hhs⟩ := hostnameNew_ok h hostname (withCtx_ok _ _ _ heq)
        obtain ⟨hq, h1, h2⟩ := portTryFrom_ok p p2 (withCtx_ok _ _ _ heq2)
        subst hhs
        simp [targetValid, hval, hq, h1, h2, Except.toBool]
  · intro u s t ht
    unfold targetHttp at ht
    split at ht
    · cases ht
    · rename_i u2 heq
      cases u2
      injection ht with hteq
      subst hteq
      simp [targetValid, heq, Except.toBool]
  · intro u s hs t ht
    unfold targetHttpWithHeaders at ht
    split at ht
    · cases ht
    · rename_i u2 heq
      cases u2
      injection ht with hteq
      subst hteq
      simp [targetValid, heq, Except.toBool]
  · intro b t ht
    simp only [HttpTargetBuilder.build] at ht
    split at ht
    · cases ht
    · rename_i u2 heq
      cases u2
      injection ht with hteq
      subst hteq
      simp only [targetValid]
      rw [heq]
      rfl
  · intro host b0 ops t h0 ht
    obtain ⟨hb0h, hb0p⟩ := targetTcpBuilder_ok host b0 h0
    obtain ⟨hh, hp⟩ := applyOps_invariant ops b0 hb0h
      (by intro p hp2; rw [hb0p] at hp2; cases hp2)
    unfold TcpTargetBuilder.build at ht
    split at ht
    · cases ht
    · split at ht
      · cases ht
      · rename_i port hport
        injection ht with hteq
        subst hteq
        obtain ⟨h1, h2⟩ := hp port hport
        simp [targetValid, hh, h1, h2, Except.toBool]
  · intro up s d t hcond ht
    simp only [targetParse] at ht
    rw [if_neg (by simp [hcond])] at ht
    split at ht
    · cases ht
    · split at ht
      · cases ht
      · rename_i hostname heq
        split at ht
        · cases ht
        · rename_i port hport
          split at ht
          · cases ht
          · rename_i p2 heq2
            injection ht with hteq
            subst hteq
            obtain ⟨hval, hhs⟩ := hostnameNew_ok _ hostname (withCtx_ok _ _ _ heq)
            obtain ⟨hq, h1, h2⟩ := portTryFrom_ok port p2 (withCtx_ok _ _ _ heq2)
            subst hhs
            simp only [targetValid, hq]
            simp at hval
            simp [hval, h1, h2, Except.toBool]

/-- Witness for the amended C5: `tcp("db", 5432)`, `http` on the example URL
with status 200, the same with one header, an HTTP builder run
(status 201 plus one custom header), a TCP builder run
(`tcp_builder("db").registered_port(8080)`), and `parse("db:5432", 200)` all
construct valid targets. -/
theorem c5_constructed_targets_valid_witness :
    targetValid (.tcp "db" 5432) = true ∧
    targetValid (.http exUrl 200 none) = true ∧
    targetValid (.http exUrl 200 (some [("Authorization", "Bearer t")])) = true ∧
    ((httpBuilderNew exUrl).status 201 |>.header "X-Custom" "v").build =
      .ok (.http exUrl 201 (some [("X-Custom", "v")])) ∧
    targetValid (.http exUrl 201 (some [("X-Custom", "v")])) = true ∧
    targetTcpBuilder "db" = .ok ⟨"db", none, none⟩ ∧
    (TcpTargetBuilder.applyOps ⟨"db", none, none⟩ [.registeredPort 8080]).build =
      .ok (.tcp "db" 8080) ∧
    targetValid (.tcp "db" 8080) = true ∧
    targetParse urlParseEx "db:5432" 200 = .ok (.tcp "db" 5432) ∧
    targetValid (.tcp "db" 5432) = true := by
  refine ⟨?_, ?_, ?_, by decide, ?_, by decide, by decide, ?_, by decide, ?_⟩
  · exact c5_constructed_targets_valid.1 "db" 5432 (.tcp "db" 5432) (by decide)
  · exact c5_constructed_targets_valid.2.1 exUrl 200 (.http exUrl 200 none) (by decide)
  · exact c5_constructed_targets_valid.2.2.1 exUrl 200 [("Authorization", "Bearer t")]
      (.http exUrl 200 (some [("Authorization", "Bearer t")])) (by decide)
  · exact c5_constructed_targets_valid.2.2.2.1
      ((httpBuilderNew exUrl).status 201 |>.header "X-Custom" "v")
      (.http exUrl 201 (some [("X-Custom", "v")])) (by decide)
  · exact c5_constructed_targets_valid.2.2.2.2.1 "db" ⟨"db", none, none⟩
      [.registeredPort 8080] (.tcp "db" 8080) (by decide) (by decide)
  · exact c5_constructed_targets_valid.2.2.2.2.2 urlParseEx "db:5432" 200 (.tcp "db" 5432)
      (by decide) (by decide)

/-! ## Claims C2 and C3: the orchestration strategies -/

theorem collectResults_map_ok (rs : List TargetResult) :
    collectResults (rs.map Except.ok) = .ok rs := by
  induction rs with
  | nil => rfl
  | cons r rest ih => simp [collectResults, ih]

theorem selectOkList_first_ok (pre : List (Except WaitForError TargetResult))
    (r : TargetResult) (rest : List (Except WaitForError TargetResult))
    (hpre : ∀ x ∈ pre, x.toBool = false) :
    selectOkList (pre ++ .ok r :: rest) = some (.ok r) := by
  induction pre with
  | nil =>
    cases rest with
    | nil => rfl
    | cons y ys => rfl
  | cons e pre2 ih =>
    have he := hpre e (List.mem_cons_self ..)
    cases e with
    | ok a => simp [Except.toBool] at he
    | error err =>
      cases hq : pre2 ++ .ok r :: rest with
      | nil => exact absurd hq (by simp)
      | cons z zs =>
        show selectOkList (.error err :: pre2 ++ .ok r :: rest) = some (.ok r)
        rw [List.cons_append, hq]
        show selectOkList (z :: zs) = some (.ok r)
        rw [← hq]
        exact ih fun x hx => hpre x (List.mem_cons_of_mem _ hx)

/-- Claim C2 as stated is false: `select_ok` returns the first future that
completes with `Ok`, and a prober that exhausts its retries also completes
with `Ok` (carrying an unsuccessful `TargetResult`).  Target A's prober
(`max_retries = 1`, instantaneous failing attempt) reaches its terminal state
at wall time 0, before target B's prober, whose single successful attempt
costs 5 ms — so in completion order A precedes B, the call returns at A's
terminal state, and B's success never reaches the result: `success = false`
and `target_results` holds the failed result, although a prober succeeded. -/
theorem c2_counterexample :
    waitForSingleTarget ipParseNone (fun _ => .error "refused") (fun _ => 0) anyTargetA
      cfgFailA ⟨[], 0⟩ 0 1 = some (.ok rFailA) ∧
    waitForSingleTarget ipParseNone (fun _ => .ok ()) (fun _ => 5000000) anyTargetB
      cfgSuccB ⟨[], 0⟩ 0 1 = some (.ok rSuccB) ∧
    rSuccB.success = true ∧
    waitForConnectionAny [.ok rFailA, .ok rSuccB] 0 =
      some (.ok { success := false, elapsed := 0, attempts := 1,
                  targetResults := [rFailA] }) ∧
    rFailA.success = false := by
  refine ⟨by decide, by decide, by decide, by decide, by decide⟩

/-- Claim C2, amended: with `wait_for_any = true` the call returns as soon as
the first prober reaches an `Ok` terminal state — successful or not — and the
`WaitResult` mirrors that winner: `success` is the winner's flag, `attempts`
the winner's count, and `target_results` holds only the winner.  When the
first terminal result is a success this yields exactly the claim's
properties. -/
theorem c2_any_first_terminal (pre : List (Except WaitForError TargetResult))
    (r : TargetResult) (rest : List (Except WaitForError TargetResult)) (elapsed : Nat)
    (hpre : ∀ x ∈ pre, x.toBool = false) :
    waitForConnectionAny (pre ++ .ok r :: rest) elapsed =
      some (.ok { success := r.success, elapsed := elapsed, attempts := r.attempts,
                  targetResults := [r] }) := by
  simp [waitForConnectionAny, selectOkList_first_ok pre r rest hpre]

/-- Witness for the amended C2: one prober errored (cancelled) first, the
next terminal state is B's success, and the result mirrors B. -/
theorem c2_any_first_terminal_witness :
    waitForConnectionAny [.error .cancelled, .ok rSuccB] 3 =
      some (.ok { success := true, elapsed := 3, attempts := 1,
                  targetResults := [rSuccB] }) := by
  have h := c2_any_first_terminal [.error .cancelled] rSuccB [] 3 (by decide)
  exact h.trans (by decide)

/-- Claim C3: under the ALL strategy, when every prober returns a
`TargetResult`, any unsuccessful result turns the call into a
`Timeout` error listing every failed target's display string joined by
`", "`; when all succeed, the call returns `success = true` with `attempts`
the sum of the per-target counts. -/
theorem c3_all_strategy (rs : List TargetResult) (elapsed : Nat) :
    ((∃ r ∈ rs, r.success = false) →
      waitForConnectionAll (rs.map Except.ok) elapsed =
        .error (.timeout (String.intercalate ", "
          ((rs.filter fun r => !r.success).map fun r => r.target.display)))) ∧
    ((∀ r ∈ rs, r.success = true) →
      waitForConnectionAll (rs.map Except.ok) elapsed =
        .ok { success := true, elapsed := elapsed,
              attempts := (rs.map fun r => r.attempts).sum, targetResults := rs }) := by
  constructor
  · rintro ⟨r0, hr0, hfail⟩
    have hall : (rs.all fun r => r.success) = false := by
      cases hb : rs.all fun r => r.success
      · rfl
      · exact absurd (List.all_eq_true.mp hb r0 hr0) (by rw [hfail]; decide)
    simp [waitForConnectionAll, collectResults_map_ok, hall]
  · intro hsucc
    have hall : (rs.all fun r => r.success) = true := List.all_eq_true.mpr hsucc
    simp [waitForConnectionAll, collectResults_map_ok, hall]

/-- Witness for C3: with a failing target the call errors naming `a:1`; with
only successful targets it returns the summed attempts. -/
theorem c3_all_strategy_witness :
    waitForConnectionAll ([rSuccB, rFailA].map Except.ok) 7 =
      .error (.timeout "a:1") ∧
    waitForConnectionAll ([rSuccB].map Except.ok) 7 =
      .ok { success := true, elapsed := 7, attempts := 1, targetResults := [rSuccB] } := by
  constructor
  · have h := (c3_all_strategy [rSuccB, rFailA] 7).1 ⟨rFailA, by decide, by decide⟩
    exact h.trans (by decide)
  · have h := (c3_all_strategy [rSuccB] 7).2 (by decide)
    exact h.trans (by decide)

/-! ## Claims C1 and C6: failure handling in the retry loop -/

theorem calculateNextInterval_zero (mx : Nat) : calculateNextInterval 0 mx = 0 := by
  simp [calculateNextInterval]

theorem tryConnectTarget_connTimeout (ipParse : IpParser) (cfg : WaitConfig) (ct : Nat)
    (rl : RLState) (t : Target) (now : Nat) (nr : Except String Unit) :
    tryConnectTarget ipParse { cfg with connectionTimeout := ct } rl t now nr =
      tryConnectTarget ipParse cfg rl t now nr := by
  cases cfg
  rfl

theorem tryConnectTarget_rl_none (ipParse : IpParser) (cfg : WaitConfig)
    (hrl : cfg.rateLimiter = none) (rl : RLState) (t : Target) (now : Nat)
    (nr : Except String Unit) :
    (tryConnectTarget ipParse cfg rl t now nr).2 = rl := by
  unfold tryConnectTarget tryConnectTarget.tryConnectGated
  rw [hrl]
  cases hv : cfg.securityValidator with
  | none => simp
  | some v =>
    cases hvt : v.validateTarget ipParse t with
    | error e => simp [hvt]
    | ok u => simp [hvt]

/-- Exhaustion of the retry loop under always-failing attempts: with no rate
limiter, no cancellation, a positive overall timeout, zero attempt durations
and a zero backoff interval, the prober keeps retrying — sleeping the
(zero-length) backoff between attempts — and terminates through the
max-retries branch with `attempts = m` and the `"Max retries (m) exceeded"`
message. -/
theorem probeLoop_exhaust (ipParse : IpParser) (net : Nat → Except String Unit)
    (dur : Nat → Nat) (target : Target) (cfg : WaitConfig) (start : Nat) (rlSt : RLState)
    (m : Nat)
    (hrl : cfg.rateLimiter = none) (hcan : cfg.cancelAt = none)
    (hto : 1 ≤ cfg.timeout) (hdur : ∀ i, dur i = 0)
    (hmax : cfg.maxRetries = some m)
    (hfail : ∀ i, (tryConnectTarget ipParse cfg rlSt target start (net i)).1.toBool = false) :
    ∀ k attempt, attempt + k = m → 1 ≤ k →
      probeLoop ipParse net dur target cfg start k ⟨rlSt, start, attempt, 0⟩ =
        some (.ok { target := target, success := false, elapsed := 0, attempts := m,
                    error := some (maxRetriesMsg m) }) := by
  intro k
  induction k with
  | zero => intro attempt h0 h1; omega
  | succ k ih =>
    intro attempt hsum _
    have hnd : ¬(start + cfg.timeout ≤ start) := by omega
    have hic : cfg.isCancelled start = false := by
      simp [WaitConfig.isCancelled, hcan]
    have hfk := hfail (attempt + 1)
    simp only [probeLoop, probeStep, hic, Bool.false_eq_true, if_false, if_neg hnd,
      tryConnectTarget_connTimeout]
    cases hE : (tryConnectTarget ipParse cfg rlSt target start (net (attempt + 1))).1 with
    | ok u => rw [hE] at hfk; simp [Except.toBool] at hfk
    | error e =>
      rcases Nat.eq_zero_or_pos k with hk0 | hkpos
      · subst hk0
        have hm1 : attempt + 1 = m := by omega
        simp only [hmax]
        rw [if_pos (by simp; omega)]
        simp [hm1]
      · simp only [hmax]
        rw [if_neg (by simp; omega)]
        rw [hdur, tryConnectTarget_rl_none ipParse cfg hrl, calculateNextInterval_zero]
        simp only [hcan, Nat.add_zero, Nat.zero_min]
        exact ih (attempt + 1) (by omega) hkpos

/-- Claim C1 as stated is false: the loop's `Err(_e)` arm treats a
security-validator rejection exactly like a retryable connection failure.
With the production validator (which rejects port 22) and `max_retries = 2`,
the prober makes a second attempt after the first policy rejection and sleeps
the 1 ms backoff interval between them (visible in `elapsed`), instead of
surfacing the rejection immediately. -/
theorem c1_counterexample :
    (SecurityValidator.production.validateTarget ipParseNone tcp22).toBool = false ∧
    waitForSingleTarget ipParseNone (fun _ => .error "net") (fun _ => 0) tcp22 c1cfg
      ⟨[], 0⟩ 0 3 =
      some (.ok { target := tcp22, success := false, elapsed := 1000000, attempts := 2,
                  error := some (maxRetriesMsg 2) }) := by
  refine ⟨by decide, by decide⟩

/-- Claim C1, amended: a policy rejection is not surfaced immediately; the
prober records it like a retryable connection failure, sleeps the backoff
interval, and retries until `max_retries` (or the overall deadline) is
reached.  With an always-rejecting validator and `max_retries = m ≥ 1`, the
prober performs exactly `m` attempts before terminating through the
max-retries branch. -/
theorem c1_policy_rejection_retried (ipParse : IpParser) (net : Nat → Except String Unit)
    (dur : Nat → Nat) (target : Target) (cfg : WaitConfig) (start : Nat) (rlSt : RLState)
    (m : Nat) (v : SecurityValidator)
    (hv : cfg.securityValidator = some v)
    (hrej : (v.validateTarget ipParse target).toBool = false)
    (hrl : cfg.rateLimiter = none) (hcan : cfg.cancelAt = none)
    (hto : 1 ≤ cfg.timeout) (hint : cfg.initialInterval = 0) (hdur : ∀ i, dur i = 0)
    (hmax : cfg.maxRetries = some m) (hm : 1 ≤ m) :
    waitForSingleTarget ipParse net dur target cfg rlSt start m =
      some (.ok { target := target, success := false, elapsed := 0, attempts := m,
                  error := some (maxRetriesMsg m) }) := by
  have hfail : ∀ i,
      (tryConnectTarget ipParse cfg rlSt target start (net i)).1.toBool = false := by
    intro i
    unfold tryConnectTarget
    rw [hv]
    cases hvt : v.validateTarget ipParse target with
    | error e => simp [hvt, Except.toBool]
    | ok u => rw [hvt] at hrej; simp [Except.toBool] at hrej
  unfold waitForSingleTarget
  rw [hint]
  exact probeLoop_exhaust ipParse net dur target cfg start rlSt m hrl hcan hto hdur hmax
    hfail m 0 (by omega) hm

/-- Witness for the amended C1: production validator, blocked port 22,
`max_retries = 3`, zero backoff: three attempts are made. -/
theorem c1_policy_rejection_retried_witness :
    waitForSingleTarget ipParseNone (fun _ => .error "net") (fun _ => 0) tcp22 c1zcfg
      ⟨[], 0⟩ 0 3 =
      some (.ok { target := tcp22, success := false, elapsed := 0, attempts := 3,
                  error := some (maxRetriesMsg 3) }) :=
  c1_policy_rejection_retried ipParseNone (fun _ => .error "net") (fun _ => 0) tcp22
    c1zcfg 0 ⟨[], 0⟩ 3 SecurityValidator.production rfl (by decide) rfl rfl
    (by decide) rfl (fun _ => rfl) rfl (by decide)

/-- Claim C6 as stated is false: the terminal error of the max-retries branch
is the bare string `"Max retries (2) exceeded"`; the last connection error
(`"boom"` here — discarded by the loop's `Err(_e)` arm) is not part of it, as
the message does not even contain the character `'b'`. -/
theorem c6_counterexample :
    waitForSingleTarget ipParseNone (fun _ => .error "boom") (fun _ => 0) dbTarget c6cfg
      ⟨[], 0⟩ 0 2 =
      some (.ok { target := dbTarget, success := false, elapsed := 0, attempts := 2,
                  error := some (maxRetriesMsg 2) }) ∧
    maxRetriesMsg 2 = "Max retries (2) exceeded" ∧
    'b' ∈ "boom".data ∧ 'b' ∉ (maxRetriesMsg 2).data := by
  refine ⟨by decide, by decide, by decide, by decide⟩

/-- Claim C6, amended: when the attempt count reaches `max_retries = m` after
a failed attempt, the prober terminates with `success = false` and the error
message `"Max retries (m) exceeded"`; the last connection error message is
discarded, as the result is the same for every message sequence `msgs`. -/
theorem c6_max_retries_message (ipParse : IpParser) (msgs : Nat → String)
    (dur : Nat → Nat) (target : Target) (cfg : WaitConfig) (start : Nat) (rlSt : RLState)
    (m : Nat)
    (hv : cfg.securityValidator = none) (hrl : cfg.rateLimiter = none)
    (hcan : cfg.cancelAt = none) (hto : 1 ≤ cfg.timeout)
    (hint : cfg.initialInterval = 0) (hdur : ∀ i, dur i = 0)
    (hmax : cfg.maxRetries = some m) (hm : 1 ≤ m) :
    waitForSingleTarget ipParse (fun i => .error (msgs i)) dur target cfg rlSt start m =
      some (.ok { target := target, success := false, elapsed := 0, attempts := m,
                  error := some (maxRetriesMsg m) }) := by
  have hfail : ∀ i,
      (tryConnectTarget ipParse cfg rlSt target start (.error (msgs i))).1.toBool = false := by
    intro i
    unfold tryConnectTarget tryConnectTarget.tryConnectGated
    rw [hv, hrl]
    rfl
  unfold waitForSingleTarget
  rw [hint]
  exact probeLoop_exhaust ipParse (fun i => .error (msgs i)) dur target cfg start rlSt m
    hrl hcan hto hdur hmax hfail m 0 (by omega) hm

/-- Witness for the amended C6: two failing attempts with distinct messages
still yield the bare max-retries message. -/
theorem c6_max_retries_message_witness :
    waitForSingleTarget ipParseNone (fun i => .error ("err" ++ toString i)) (fun _ => 0)
      dbTarget c6cfg ⟨[], 0⟩ 0 2 =
      some (.ok { target := dbTarget, success := false, elapsed := 0, attempts := 2,
                  error := some (maxRetriesMsg 2) }) :=
  c6_max_retries_message ipParseNone (fun i => "err" ++ toString i) (fun _ => 0) dbTarget
    c6cfg 0 ⟨[], 0⟩ 2 rfl rfl rfl (by decide) rfl (fun _ => rfl) rfl (by decide)

/-! ## Claim C8: the rate limiter -/

theorem mem_rlUpdate (limits : List (String × List Nat)) (k : String) (l : List Nat) :
    ∀ p ∈ rlUpdate limits k l, p.1 = k ∨ p ∈ limits := by
  induction limits with
  | nil =>
    intro p hp
    simp only [rlUpdate, List.mem_singleton] at hp
    subst hp
    exact Or.inl rfl
  | cons q rest ih =>
    intro p hp
    simp only [rlUpdate] at hp
    by_cases hq : q.1 = k
    · rw [if_pos hq] at hp
      rcases List.mem_cons.mp hp with rfl | hmem
      · exact Or.inl hq
      · exact Or.inr (List.mem_cons_of_mem _ hmem)
    · rw [if_neg hq] at hp
      rcases List.mem_cons.mp hp with rfl | hmem
      · exact Or.inr (List.mem_cons_self ..)
      · rcases ih p hmem with h1 | h2
        · exact Or.inl h1
        · exact Or.inr (List.mem_cons_of_mem _ h2)

theorem cleanupIfNeeded_preserves_absent (rl : RateLimiter) (st : RLState) (now : Nat)
    (key : String) (hst : ∀ p ∈ st.limits, p.1 ≠ key) :
    ∀ p ∈ (rl.cleanupIfNeeded st now).limits, p.1 ≠ key := by
  unfold RateLimiter.cleanupIfNeeded
  split
  · intro p hp
    simp only [List.mem_filter, List.mem_map] at hp
    obtain ⟨⟨q, hq, hqp⟩, _⟩ := hp
    rw [← hqp]
    exact hst q hq
  · exact hst

theorem entryD_absent (st : RLState) (key : String)
    (hst : ∀ p ∈ st.limits, p.1 ≠ key) : st.entryD key = [] := by
  unfold RLState.entryD
  rw [List.find?_eq_none.mpr]
  · rfl
  · intro p hp
    simp [hst p hp]

theorem checkRateLimit_preserves_absent (rl : RateLimiter) (st : RLState) (now : Nat)
    (t : Target) (key : String) (hk : getRateLimitKey t ≠ key)
    (hst : ∀ p ∈ st.limits, p.1 ≠ key) :
    ∀ p ∈ (rl.checkRateLimit st now t).2.limits, p.1 ≠ key := by
  have hclean := cleanupIfNeeded_preserves_absent rl st now key hst
  simp only [RateLimiter.checkRateLimit]
  split
  · intro p hp
    simp only at hp
    rcases mem_rlUpdate _ _ _ p hp with h1 | h2
    · rw [h1]; exact hk
    · exact hclean p h2
  · intro p hp
    simp only at hp
    rcases mem_rlUpdate _ _ _ p hp with h1 | h2
    · rw [h1]; exact hk
    · exact hclean p h2

theorem RateLimiter_new_interval (n : Nat) :
    (RateLimiter.new n).cleanupIntervalNs = 300000000000 := rfl

theorem RateLimiter_new_max (n : Nat) :
    (RateLimiter.new n).maxRequestsPerMinute = n := rfl

theorem minuteNs_eq : minuteNs = 60000000000 := rfl

theorem cleanupIfNeeded_skip (rl : RateLimiter) (st : RLState) (now : Nat)
    (h : ¬(rl.cleanupIntervalNs < now - st.lastCleanup)) :
    rl.cleanupIfNeeded st now = st := by
  unfold RateLimiter.cleanupIfNeeded
  rw [if_neg h]

theorem runRL_absent (rl : RateLimiter) (key : String) :
    ∀ (calls : List (Target × Nat)) (st : RLState),
      (∀ c ∈ calls, getRateLimitKey c.1 ≠ key) →
      (∀ p ∈ st.limits, p.1 ≠ key) →
      ∀ p ∈ (runRateLimiter rl st calls).2.limits, p.1 ≠ key := by
  intro calls
  induction calls with
  | nil => intro st _ hst; exact hst
  | cons c rest ih =>
    intro st hcalls hst
    simp only [runRateLimiter]
    exact ih (rl.checkRateLimit st c.2 c.1).2
      (fun c2 hc2 => hcalls c2 (List.mem_cons_of_mem _ hc2))
      (checkRateLimit_preserves_absent rl st c.2 c.1 key
        (hcalls c (List.mem_cons_self ..)) hst)

/-- The accumulator induction behind the first part of C8: starting from a
state whose only entry is `done` timestamps for the target's key (all within
one minute of `t0`, the creation time), a run of `todo` further calls — with
`done.length + todo.length = n + 1` — allows the first `n - done.length` and
rejects the last. -/
theorem c8_run_aux (n : Nat) (target : Target) (t0 : Nat) :
    ∀ (todo done : List Nat),
      done.length + todo.length = n + 1 → done.length ≤ n →
      (∀ t ∈ done, t0 ≤ t ∧ t < t0 + minuteNs) →
      (∀ t ∈ todo, t0 ≤ t ∧ t < t0 + minuteNs) →
      (runRateLimiter (RateLimiter.new n)
          ⟨[(getRateLimitKey target, done)], t0⟩ (todo.map fun t => (target, t))).1 =
        List.replicate (n - done.length) true ++ [false] := by
  intro todo
  induction todo with
  | nil => intro done hsum hle _ _; simp at hsum; omega
  | cons t rest ih =>
    intro done hsum hle hdone htodo
    obtain ⟨ht0, htw⟩ := htodo t (List.mem_cons_self ..)
    have hnoclean : (RateLimiter.new n).cleanupIfNeeded
        ⟨[(getRateLimitKey target, done)], t0⟩ t =
        ⟨[(getRateLimitKey target, done)], t0⟩ :=
      cleanupIfNeeded_skip _ _ _ (by
        show ¬((RateLimiter.new n).cleanupIntervalNs < t - t0)
        rw [RateLimiter_new_interval]
        rw [minuteNs_eq] at htw
        omega)
    have hentry : RLState.entryD ⟨[(getRateLimitKey target, done)], t0⟩
        (getRateLimitKey target) = done := by
      unfold RLState.entryD
      rw [List.find?_cons_of_pos _ (by simp)]
      rfl
    have hfilter : done.filter (fun s => decide (t - s < minuteNs)) = done := by
      apply List.filter_eq_self.mpr
      intro a ha
      obtain ⟨ha0, _⟩ := hdone a ha
      simp only [decide_eq_true_eq]
      omega
    have hupd : rlUpdate [(getRateLimitKey target, done)] (getRateLimitKey target)
        = fun l => [(getRateLimitKey target, l)] := by
      funext l
      simp [rlUpdate]
    simp only [List.map_cons, runRateLimiter]
    simp only [RateLimiter.checkRateLimit, hnoclean, hentry, hfilter, hupd]
    rcases Nat.lt_or_ge done.length n with hlt | hge
    · rw [if_neg (by simp [RateLimiter.new]; omega)]
      have hres := ih (done ++ [t]) (by simp at hsum ⊢; omega) (by simp; omega)
        (by
          intro a ha
          rcases List.mem_append.mp ha with h1 | h2
          · exact hdone a h1
          · rw [List.mem_singleton.mp h2]; exact ⟨ht0, htw⟩)
        (fun a ha => htodo a (List.mem_cons_of_mem _ ha))
      simp only [hres, Except.toBool]
      have hn : n - done.length = (n - (done ++ [t]).length) + 1 := by simp; omega
      rw [hn, List.replicate_succ]
      rfl
    · have hlen0 : rest.length = 0 := by simp at hsum; omega
      have hrest : rest = [] := List.eq_nil_of_length_eq_zero hlen0
      subst hrest
      rw [if_pos (by simp [RateLimiter.new]; omega)]
      have hnd : n - done.length = 0 := by omega
      simp [runRateLimiter, hnd, Except.toBool]

/-- Claim C8: a limiter with ceiling `n` allows the first `n` calls for one
key inside a 60-second window and rejects the `(n+1)`-th; calls whose keys
differ from a given key leave that key's admission unaffected — after any
such calls, a check for the other key still succeeds. -/
theorem c8_rate_limiter (n : Nat) (hn : 1 ≤ n) (target : Target) (t0 : Nat)
    (ts : List Nat) (hlen : ts.length = n + 1)
    (hwin : ∀ t ∈ ts, t0 ≤ t ∧ t < t0 + minuteNs) :
    (runRateLimiter (RateLimiter.new n) ⟨[], t0⟩ (ts.map fun t => (target, t))).1 =
      List.replicate n true ++ [false] ∧
    (∀ (other : Target) (calls : List (Target × Nat)),
      (∀ c ∈ calls, getRateLimitKey c.1 ≠ getRateLimitKey other) →
      ∀ now,
        ((RateLimiter.new n).checkRateLimit
            (runRateLimiter (RateLimiter.new n) ⟨[], t0⟩ calls).2 now other).1.toBool
          = true) := by
  constructor
  · cases ts with
    | nil => simp at hlen
    | cons t1 rest =>
      obtain ⟨ht0, htw⟩ := hwin t1 (List.mem_cons_self ..)
      have hnoclean : (RateLimiter.new n).cleanupIfNeeded ⟨[], t0⟩ t1 = ⟨[], t0⟩ :=
        cleanupIfNeeded_skip _ _ _ (by
          show ¬((RateLimiter.new n).cleanupIntervalNs < t1 - t0)
          rw [RateLimiter_new_interval]
          rw [minuteNs_eq] at htw
          omega)
      have hentry : RLState.entryD ⟨[], t0⟩ (getRateLimitKey target) = [] := rfl
      simp only [List.map_cons, runRateLimiter]
      simp only [RateLimiter.checkRateLimit, hnoclean, hentry, List.filter_nil]
      rw [if_neg (by simp [RateLimiter.new]; omega)]
      have hres := c8_run_aux n target t0 rest [t1]
        (by simp at hlen ⊢; omega) (by simp; omega)
        (by intro a ha; rw [List.mem_singleton.mp ha]; exact ⟨ht0, htw⟩)
        (fun a ha => hwin a (List.mem_cons_of_mem _ ha))
      simp only [rlUpdate, List.nil_append] at hres ⊢
      simp only [hres, Except.toBool]
      have hrep : n = (n - 1) + 1 := by omega
      rw [hrep, List.replicate_succ]
      simp
  · intro other calls hcalls now
    have habs : ∀ p ∈ (runRateLimiter (RateLimiter.new n) ⟨[], t0⟩ calls).2.limits,
        p.1 ≠ getRateLimitKey other :=
      runRL_absent (RateLimiter.new n) (getRateLimitKey other) calls ⟨[], t0⟩ hcalls
        (by intro p hp; cases hp)
    have habs2 := cleanupIfNeeded_preserves_absent (RateLimiter.new n)
      (runRateLimiter (RateLimiter.new n) ⟨[], t0⟩ calls).2 now
      (getRateLimitKey other) habs
    have hent := entryD_absent _ _ habs2
    simp only [RateLimiter.checkRateLimit, hent, List.filter_nil]
    rw [if_neg (by simp [RateLimiter.new]; omega)]
    rfl

/-- Witness for C8: ceiling 2, three same-key calls within the window, then a
different-key call that still succeeds. -/
theorem c8_rate_limiter_witness :
    (runRateLimiter (RateLimiter.new 2) ⟨[], 5⟩
        ([5, 6, 7].map fun t => (Target.tcp "h" 80, t))).1 =
      List.replicate 2 true ++ [false] ∧
    ((RateLimiter.new 2).checkRateLimit
        (runRateLimiter (RateLimiter.new 2) ⟨[], 5⟩
          ([5, 6, 7].map fun t => (Target.tcp "h" 80, t))).2 8
        (Target.tcp "other" 81)).1.toBool = true := by
  have h := c8_rate_limiter 2 (by decide) (Target.tcp "h" 80) 5 [5, 6, 7] (by decide)
    (by decide)
  refine ⟨h.1, ?_⟩
  exact h.2 (Target.tcp "other" 81) ([5, 6, 7].map fun t => (Target.tcp "h" 80, t))
    (by decide) 8

end Waitup
